import Mathlib

/-!
Verification development for the `shrinkwrap` derive-macro generation engine
(`shrinkwrap-macros`).  The engine resolves a parsed `Config`
(`DeriveItemOpts`) into emitted struct definitions and conversion-function
definitions.  This file gives a shallow embedding of the engine
(`src/shrinkwrap-macros/src/generate.rs`, `generate/types.rs`,
`parse/types.rs`, `mapping/types.rs`) and proves or refutes the frozen
claims about it.

Modelling conventions:
* Rust `Ident`, `Type`, `Path` and rendered token streams are modelled as
  `String`; spans are modelled as `String` labels.
* `proc_macro_error2::abort!` / `panic!` are modelled as `Except.error`
  with a structured `GenError` carrying exactly the data interpolated
  into the source's diagnostic message.
* `std::collections::HashMap` is modelled as an insertion-ordered
  association list for maps that are only used via lookup.  Where the
  source *iterates* a `HashMap` (whose iteration order is unspecified),
  the emission function is parametrised by the entry order, exposing the
  order dependence; the insertion order used by `generate_entrypoint`
  below is one possible iteration order.
-/

namespace Shrinkwrap

/-- Split a character list at underscores (dropping them). -/
def splitOnUnderscore : List Char → List (List Char)
  | [] => [[]]
  | c :: rest =>
    let r := splitOnUnderscore rest
    if c == '_' then [] :: r
    else
      match r with
      | [] => [[c]]
      | w :: ws => (c :: w) :: ws

/-- One upper-camel-case word: models `heck` casing of a single word
(first char upper-cased, the rest lower-cased), as used by
`NestOpts::build_struct_name_suffix`. -/
def upperCamelWordChars : List Char → List Char
  | [] => []
  | c :: cs => c.toUpper :: cs.map Char.toLower

/-- Models `heck::AsUpperCamelCase` on ASCII snake-case identifiers:
split on underscores, upper-camel each word, concatenate. -/
def upperCamel (s : String) : String :=
  String.mk (((splitOnUnderscore s.data).map upperCamelWordChars).flatten)

/-- Modelled from the spec: the mapping strategy of a group (§3), carried by
the `NestOpts` iteration that `generate.rs` consumes (`NestMapStrategy` is
referenced by `generate.rs`/`generate/types.rs` but its definition is not
under `src/`): (a) reuse an existing `From` conversion, (b) delegate to a
named shared transformer type, (c) deeply nested — inherit from the named
origin group.  `generate.rs` uses `maps_with_from`, `maps_with_transform`,
`map_transform_type`, equality of strategies, and the `Nested { .. }`
variant test. -/
inductive NestMapStrategy where
  | fromImpl : NestMapStrategy
  | transform (with_ : String) : NestMapStrategy
  | nested (origin : String) : NestMapStrategy
deriving DecidableEq, Repr

def NestMapStrategy.mapsWithFrom : NestMapStrategy → Bool
  | .fromImpl => true
  | _ => false

def NestMapStrategy.mapsWithTransform : NestMapStrategy → Bool
  | .transform _ => true
  | _ => false

def NestMapStrategy.mapTransformType : NestMapStrategy → Option String
  | .transform w => some w
  | _ => none

/-- `parse/types.rs` — `NestOpts` (the iteration consumed by `generate.rs`:
it carries a mapping strategy; naming helpers are the ones of
`parse/types.rs`).  Spans are string labels standing for `proc_macro2::Span`. -/
structure NestOpts where
  id : String
  id_span : String := ""
  field_name_opt : Option String := none
  field_name_span : String := ""
  rename : Option String := none
  rename_span : String := ""
  derive : List String := []
  field_type : String
  map_strategy : NestMapStrategy
  doc : String := ""
  parent_field_doc : String := ""
  optional : Bool := false
deriving DecidableEq, Repr

/-- `NestOpts::field_name` — defaults to the nest id. -/
def NestOpts.field_name (n : NestOpts) : String :=
  n.field_name_opt.getD n.id

/-- `NestOpts::origin` — the declared origin for deeply nested groups,
otherwise the root struct. -/
def NestOpts.origin (n : NestOpts) (root : String) : String :=
  match n.map_strategy with
  | .nested o => o
  | _ => root

/-- `NestOpts::build_default_struct_name` — only root nests get the
`Nested` region descriptor. -/
def NestOpts.build_default_struct_name (origin root fieldName : String) : String :=
  let region := if origin == root then "Nested" else ""
  origin ++ region ++ upperCamel fieldName

/-- `NestOpts::struct_name` — explicit rename, or the default naming
convention. -/
def NestOpts.struct_name (n : NestOpts) (root : String) : String :=
  match n.rename with
  | some nm => nm
  | none => NestOpts.build_default_struct_name (n.origin root) root n.field_name

/-- `NestOpts::struct_name_span`. -/
def NestOpts.struct_name_span (n : NestOpts) : String :=
  match n.rename with
  | some _ => n.rename_span
  | none =>
    match n.field_name_opt with
    | some _ => n.field_name_span
    | none => n.id_span

/-- `darling::util::Override<bool>` for the wrapper `flatten` option. -/
inductive OverrideB where
  | inherit
  | explicit (b : Bool)
deriving DecidableEq, Repr

/-- `parse/types.rs` — `WrapperOpts`. -/
structure WrapperOpts where
  struct_suffix : Option String := none
  derive : List String := []
  doc : String := ""
  data_field_name_opt : Option String := none
  data_field_doc : String := ""
  flatten : Option OverrideB := none
  extra_field_name_opt : Option String := none
  extra_field_doc : String := ""
deriving DecidableEq, Repr

def WrapperOpts.struct_name (o : WrapperOpts) (dataIdent : String) : String :=
  dataIdent ++ o.struct_suffix.getD "Wrapper"

def WrapperOpts.data_field_name (o : WrapperOpts) : String :=
  o.data_field_name_opt.getD "data"

def WrapperOpts.extra_field_name (o : WrapperOpts) : String :=
  o.extra_field_name_opt.getD "extra"

/-- `WrapperOpts::flatten` — flattening defaults to enabled; only an
explicit `flatten = false` disables it. -/
def WrapperOpts.flattenVal (o : WrapperOpts) : Bool :=
  match o.flatten with
  | some .inherit => true
  | some (.explicit true) => true
  | none => true
  | some (.explicit false) => false

/-- `parse/types.rs` — `ExtraOpts`. -/
structure ExtraOpts where
  struct_suffix : Option String := none
  derive : List String := []
  doc : String := ""
deriving DecidableEq, Repr

def ExtraOpts.struct_name (o : ExtraOpts) (parentDataIdent : String) : String :=
  parentDataIdent ++ o.struct_suffix.getD "Extra"

/-- Modelled from the spec: the struct-class scoping of a pass-through
annotation (§3 "Struct-attribute passthrough"; default: all classes).
`PassthroughAttributeContext` is referenced by `generate/types.rs` but its
definition is not under `src/`. -/
inductive PassthroughAttributeContext where
  | all
  | wrapper
  | extra
  | nestClass
deriving DecidableEq, Repr

instance : Inhabited PassthroughAttributeContext := ⟨.all⟩

/-- `generate/types.rs` — `NestSelection`. -/
inductive NestSelection where
  | unrestricted
  | restricted (ids : List String)
deriving DecidableEq, Repr

/-- `generate/types.rs` — `NestScopedAttrs`. -/
structure NestScopedAttrs where
  nests : NestSelection := .unrestricted
  attributes_token : String := ""
  nests_span : Option String := none
  context : PassthroughAttributeContext := .all
deriving DecidableEq, Repr

/-- `generate/types.rs` — `StructGenScope`. -/
inductive StructGenScope where
  | wrapper
  | extra
  | nestScope
deriving DecidableEq, Repr

/-- `NestScopedAttrs::has_struct_scope`. -/
def NestScopedAttrs.has_struct_scope (a : NestScopedAttrs) (scope : StructGenScope) : Bool :=
  match a.context with
  | .all => true
  | .wrapper => scope == .wrapper
  | .extra => scope == .extra
  | .nestClass => scope == .nestScope

/-- `NestScopedAttrs::has_struct_scope_for_nest`. -/
def NestScopedAttrs.has_struct_scope_for_nest (a : NestScopedAttrs) (scope : StructGenScope)
    (nestId : String) : Bool :=
  if !a.has_struct_scope scope then false
  else
    match a.nests with
    | .unrestricted => true
    | .restricted ids => ids.any (fun i => i == nestId)

/-- `NestScopedAttrs::is_permitted_by_filter`. -/
def NestScopedAttrs.is_permitted_by_filter (a : NestScopedAttrs) (scope : StructGenScope)
    (assocNestIds : List String) : Bool :=
  if !a.has_struct_scope scope then false
  else
    match a.nests with
    | .unrestricted => true
    | .restricted permitted => permitted.any (fun p => assocNestIds.contains p)

/-- Modelled from the spec: a raw pass-through annotation as deserialized by
the attribute layer (§3, §6) — the `PassthroughAttribute` darling record
referenced by `generate.rs` is not under `src/`.  `nest` is the list of
group-identity restrictions, `attr` the rendered contents of each forwarded
attribute, `context` the optional struct-class restriction. -/
structure PassthroughAttribute where
  nest : List String := []
  attr : List String := []
  context : Option PassthroughAttributeContext := none
  span : String := ""
deriving DecidableEq, Repr

/-- Modelled from the spec: one entry of a field's group list (§3 "Field
assignment") — the `nest_in_opts` records consumed by
`build_nest_fields_map` are not under `src/`.  An entry names the target
group and carries the optional per-field documentation override. -/
structure NestInOpts where
  nest_id : String
  field_doc : String := ""
deriving DecidableEq, Repr

/-- `parse/types.rs` — `DeriveItemFieldOpts` (the iteration consumed by
`generate.rs`, whose field attributes are pre-parsed pass-through
annotations and whose group list is `nest_in_opts`). -/
structure DeriveItemFieldOpts where
  ident : Option String
  attrs : List PassthroughAttribute := []
  nest_in_opts : List NestInOpts := []
deriving DecidableEq, Repr

/-- `parse/types.rs` — `DeriveItemOpts`: the Config value handed to the
engine (`data.take_struct().fields` is modelled as `fields`). -/
structure DeriveItemOpts where
  ident : String
  fields : List DeriveItemFieldOpts := []
  attrs : List PassthroughAttribute := []
  wrapper_opts : WrapperOpts := {}
  extra_opts : ExtraOpts := {}
  nest_opts : List NestOpts := []
deriving DecidableEq, Repr

/-- `generate/types.rs` — `NestField` (`PartialEq` compares names only; see
`nestFieldContains`). -/
structure NestField where
  name : String
  field_doc : String := ""
deriving DecidableEq, Repr

/-- The source's `Vec::contains` on `NestField` uses its `PartialEq`, which
compares field names only. -/
def nestFieldContains (l : List NestField) (f : NestField) : Bool :=
  l.any (fun g => g.name == f.name)

/-- `generate/types.rs` — `NestFieldAttrs`. -/
structure NestFieldAttrs where
  field_name : String
  attributes_token : String
deriving DecidableEq, Repr

/-- `generate/types.rs` — `ExtraNestField`. -/
structure ExtraNestField where
  field_name : String
  type_ident : String
  optional : Bool
deriving DecidableEq, Repr

/-- Structured rendering of the fatal diagnostics (`abort!` / `panic!`)
raised by the engine; each constructor carries exactly the data the source
interpolates into the message / attaches as span. -/
inductive GenError where
  | unknownNestField (nest_id field : String)
  | unknownNestAttr (nest_id : String) (span : Option String)
  | duplicateFieldInNest (nest_id field : String)
  | contextOnFieldAttr (span : String)
  | duplicateNestInAttr (nest_id span : String)
  | expectFailure (msg : String)
deriving DecidableEq, Repr

-- Association-list operations standing for `HashMap` lookup/update.

/-- Lookup in an insertion-ordered association list (models
`HashMap::get`; keys are unique by construction in all the maps below, so
first-match lookup is map lookup). -/
def lookupA {α : Type} : List (String × α) → String → Option α
  | [], _ => none
  | e :: m, k => if e.1 == k then some e.2 else lookupA m k

/-- Update the value at a key (models in-place mutation through
`HashMap::get_mut` / `Entry::and_modify`). -/
def updateA {α : Type} (m : List (String × α)) (k : String) (f : α → α) :
    List (String × α) :=
  m.map (fun e => if e.1 == k then (e.1, f e.2) else e)

def keysA {α : Type} (m : List (String × α)) : List String :=
  m.map (·.1)

/-- Map from nest id to the fields assigned to it (`NestFieldMap`). -/
abbrev NestFieldMap := List (String × List NestField)

/-- Map from nest id to the field-scoped pass-through attributes targeting
it (`NestFieldAttrMap`). -/
abbrev NestFieldAttrMap := List (String × List NestFieldAttrs)

/-- Map from origin ident to the nests declared under it
(`NestOriginMap`).  In the source this is a `std::collections::HashMap`;
here entries are kept in first-insertion order, which stands for one
possible iteration order of that map. -/
abbrev NestOriginMap := List (String × List NestOpts)

-- -- `generate.rs` — `build_nest_fields_map`

/-- One step of `build_nest_fields_map`'s inner loop: add `field` to the
entry of `nid`, failing if the nest already contains a field of that name
(`panic!("Nest '{nest_id}' already contains field: {field}")`). -/
def insertNestField (m : NestFieldMap) (nid : String) (f : NestField) :
    Except GenError NestFieldMap :=
  match lookupA m nid with
  | some fs =>
    if nestFieldContains fs f then
      .error (.duplicateFieldInNest nid f.name)
    else
      .ok (updateA m nid (fun l => l ++ [f]))
  | none => .ok (m ++ [(nid, [f])])

/-- The inner loop of `build_nest_fields_map` over one field's
`nest_in_opts`. -/
def insertFieldNests (m : NestFieldMap) (fieldIdent : String) :
    List NestInOpts → Except GenError NestFieldMap
  | [] => .ok m
  | ni :: rest => do
    let m' ← insertNestField m ni.nest_id { name := fieldIdent, field_doc := ni.field_doc }
    insertFieldNests m' fieldIdent rest

/-- The outer loop of `build_nest_fields_map` over the origin fields
(fields without an ident are skipped). -/
def buildNestFieldsMapGo (m : NestFieldMap) :
    List DeriveItemFieldOpts → Except GenError NestFieldMap
  | [] => .ok m
  | f :: rest =>
    match f.ident with
    | none => buildNestFieldsMapGo m rest
    | some nm => do
      let m' ← insertFieldNests m nm f.nest_in_opts
      buildNestFieldsMapGo m' rest

/-- `generate.rs` — `build_nest_fields_map`. -/
def build_nest_fields_map (fields : List DeriveItemFieldOpts) :
    Except GenError NestFieldMap :=
  buildNestFieldsMapGo [] fields

-- -- `generate.rs` — `validate_nests`

/-- The ids occurring more than once, as collected by the
visited/duplicate `HashSet` pass of `validate_nests`. -/
def duplicate_ids (ids : List String) : List String :=
  (ids.filter (fun i => 2 ≤ ids.count i)).dedup

/-- The diagnostic strings `validate_nests` pushes for duplicate ids.
NOTE (faithful to the source): this `issues` vector is built and then
*never reported* — `validate_nests` returns normally regardless of it. -/
def duplicate_id_issues (ids : List String) : List String :=
  (duplicate_ids ids).map
    (fun i => "Multiple nests are using the same ID: `" ++ i ++ "`")

/-- The second loop of `validate_nests`: every nest id referenced by some
field must have been declared; otherwise
`panic!("Unknown nest '{nest_id}' assigned to field '{field_name}'...")`. -/
def validateNestsGo (allNestIds : List String) :
    NestFieldMap → Except GenError Unit
  | [] => .ok ()
  | (nid, fs) :: rest =>
    if allNestIds.contains nid then
      validateNestsGo allNestIds rest
    else
      match fs with
      | [] => .error (.expectFailure "no field in validate call")
      | f :: _ => .error (.unknownNestField nid f.name)

/-- `generate.rs` — `validate_nests`.  The duplicate-id `issues` list is
computed (see `duplicate_id_issues`) and, exactly as in the source,
dropped without being reported. -/
def validate_nests (m : NestFieldMap) (allNestIds : List String) :
    Except GenError Unit :=
  let _issues := duplicate_id_issues allNestIds
  validateNestsGo allNestIds m

-- -- `generate.rs` — `parse_forward_attrs` / `validate_forward_attrs`

/-- The duplicate-detection loop over one annotation's nest-id list:
returns the accumulated list or the first id specified twice
(`abort!(..., "Nest '{nest_id}' specified multiple times ...")`). -/
def resolveNestIds (acc : List String) : List String → Except String (List String)
  | [] => .ok acc
  | i :: rest =>
    if acc.contains i then .error i
    else resolveNestIds (acc ++ [i]) rest

/-- Processing of a single pre-parsed pass-through annotation by
`parse_forward_attrs`. -/
def forwardAttrsOfOne (pa : PassthroughAttribute) (allowContext : Bool) :
    Except GenError (List NestScopedAttrs) :=
  if pa.context.isSome && !allowContext then
    .error (.contextOnFieldAttr pa.span)
  else
    match resolveNestIds [] pa.nest with
    | .error i => .error (.duplicateNestInAttr i pa.span)
    | .ok nestIds =>
      let sel := if nestIds.isEmpty then NestSelection.unrestricted
                 else NestSelection.restricted nestIds
      .ok (pa.attr.map (fun a =>
        { nests := sel
          attributes_token := a
          nests_span := some pa.span
          context := pa.context.getD .all }))

/-- `generate.rs` — `parse_forward_attrs`, over the annotations already
deserialized by the attribute layer (the darling `from_meta` step is the
external parse boundary). -/
def parse_forward_attrs (attrs : List PassthroughAttribute) (allowContext : Bool) :
    Except GenError (List NestScopedAttrs) :=
  match attrs with
  | [] => .ok []
  | pa :: rest => do
    let first ← forwardAttrsOfOne pa allowContext
    let more ← parse_forward_attrs rest allowContext
    pure (first ++ more)

/-- The inner check of `validate_forward_attrs` for one scoped attribute:
every restricted nest id must be a key of the nest-fields map, else
`abort!(..., "Nest '{nest_id}' doesn't exist ...")`. -/
def validateForwardAttr (a : NestScopedAttrs) (m : NestFieldMap) :
    Except GenError Unit :=
  match a.nests with
  | .unrestricted => .ok ()
  | .restricted ids =>
    match ids.find? (fun i => !(keysA m).contains i) with
    | some bad => .error (.unknownNestAttr bad a.nests_span)
    | none => .ok ()

/-- `generate.rs` — `validate_forward_attrs`. -/
def validate_forward_attrs (attrs : List NestScopedAttrs) (m : NestFieldMap) :
    Except GenError Unit :=
  match attrs with
  | [] => .ok ()
  | a :: rest => do
    validateForwardAttr a m
    validate_forward_attrs rest m

-- -- `generate.rs` — `build_nest_field_attr_map` / `parse_field_attrs`

/-- Append one `NestFieldAttrs` record to the entry of `nid`, creating the
entry if missing (the `contains_key` / `insert` / `entry().and_modify()`
sequence of `build_nest_field_attr_map`). -/
def pushNestFieldAttr (m : NestFieldAttrMap) (nid : String) (v : NestFieldAttrs) :
    NestFieldAttrMap :=
  if (lookupA m nid).isSome then updateA m nid (fun l => l ++ [v])
  else m ++ [(nid, [v])]

/-- The per-attribute loop of `build_nest_field_attr_map`: an unrestricted
attribute targets every nest id of the nest-fields map. -/
def pushFieldAttrFor (allNestIds : List String) (fieldName : String)
    (m : NestFieldAttrMap) (a : NestScopedAttrs) : NestFieldAttrMap :=
  let targetIds :=
    match a.nests with
    | .unrestricted => allNestIds
    | .restricted ids => ids
  targetIds.foldl
    (fun acc nid =>
      pushNestFieldAttr acc nid
        { field_name := fieldName, attributes_token := a.attributes_token })
    m

/-- `generate.rs` — `build_nest_field_attr_map`, over the (field, attrs)
pairs in the order they were inserted (the source iterates a `HashMap`
keyed by field ident; the order only affects attribute ordering, which no
claim depends on). -/
def build_nest_field_attr_map (fieldAttrMap : List (String × List NestScopedAttrs))
    (nestFields : NestFieldMap) : NestFieldAttrMap :=
  fieldAttrMap.foldl
    (fun acc e => e.2.foldl (pushFieldAttrFor (keysA nestFields) e.1) acc)
    []

/-- The per-field loop of `parse_field_attrs`: parse and validate each
field's forwarded attributes (fields are unwrapped — a field without an
ident makes the source panic on `unwrap`). -/
def parseFieldAttrsGo (m : NestFieldMap) :
    List DeriveItemFieldOpts → Except GenError (List (String × List NestScopedAttrs))
  | [] => .ok []
  | f :: rest =>
    match f.ident with
    | none => .error (.expectFailure "field ident unwrap")
    | some nm => do
      let parsed ← parse_forward_attrs f.attrs false
      validate_forward_attrs parsed m
      let more ← parseFieldAttrsGo m rest
      pure ((nm, parsed) :: more)

/-- `generate.rs` — `parse_field_attrs`. -/
def parse_field_attrs (fields : List DeriveItemFieldOpts) (m : NestFieldMap) :
    Except GenError NestFieldAttrMap := do
  let fieldAttrMap ← parseFieldAttrsGo m fields
  pure (build_nest_field_attr_map fieldAttrMap m)

-- -- `generate.rs` — `build_origin_map`

/-- Insert one nest under its origin key (the `contains_key` /
`insert` / `get_mut().push` sequence of `build_origin_map`). -/
def originMapInsert (m : NestOriginMap) (k : String) (n : NestOpts) : NestOriginMap :=
  if (lookupA m k).isSome then updateA m k (fun l => l ++ [n])
  else m ++ [(k, [n])]

def buildOriginMapGo (root : String) (m : NestOriginMap) :
    List NestOpts → NestOriginMap
  | [] => m
  | n :: rest => buildOriginMapGo root (originMapInsert m (n.origin root) n) rest

/-- `generate.rs` — `build_origin_map`.  The underlying container in the
source is a `HashMap`; the entry order here (first occurrence of each
origin) is one possible iteration order of it. -/
def build_origin_map (nests : List NestOpts) (root : String) : NestOriginMap :=
  buildOriginMapGo root [] nests

-- -- Emitted items (the rendered token stream, `generate/types.rs`)

/-- Type of a generated field: bare or wrapped in `Option<..>`
(`Extra::to_tokens`). -/
inductive FieldTy where
  | plain (ty : String)
  | optionOf (ty : String)
deriving DecidableEq, Repr

/-- One rendered struct field. -/
structure FieldDef where
  name : String
  ty : FieldTy
  attrs : List String := []
  doc : String := ""
deriving DecidableEq, Repr

/-- One item of the emitted token stream: a struct definition or one of
the conversion-function impl blocks the engine renders. -/
inductive Item where
  | structDef (name : String) (derives : List String) (attrs : List String)
      (fields : List FieldDef)
  | fromDataImpl (from_ty to_ty : String) (by_ref : Bool)
  | wrapImpl (data_ty wrapper_ty : String)
  | wrapWithImpl (transformer data_ty wrapper_ty : String)
      (nest_field_names : List String)
  | toNestImpl (origin_ty nest_ty : String)
deriving DecidableEq, Repr

/-- `generate/types.rs` — `default_derive_names`: the always-present trio. -/
def default_derive_names : List String := ["Debug", "Clone", "serde::Serialize"]

/-- `generate/types.rs` — `build_derives_token`: baseline trio, followed by
the Config-specified derives when any are present. -/
def build_derives_token (derives : List String) : List String :=
  if !derives.isEmpty then default_derive_names ++ derives
  else default_derive_names

/-- `generate/types.rs` — `Wrapper`. -/
structure Wrapper where
  struct_name : String
  struct_docs : String
  struct_attrs : List String
  derive : List String
  data_field_name : String
  data_struct_name : String
  data_field_docs : String
  data_flattened : Bool
  extra_field_name : String
  extra_struct_name : String
  extra_field_docs : String
deriving DecidableEq, Repr

/-- `Wrapper::new`. -/
def Wrapper.new (opts : WrapperOpts) (rootIdent extraIdent : String)
    (structAttrs : List String) : Wrapper :=
  { struct_name := opts.struct_name rootIdent
    struct_docs := opts.doc
    struct_attrs := structAttrs
    derive := opts.derive
    data_field_name := opts.data_field_name
    data_struct_name := rootIdent
    data_field_docs := opts.data_field_doc
    data_flattened := opts.flattenVal
    extra_field_name := opts.extra_field_name
    extra_struct_name := extraIdent
    extra_field_docs := opts.extra_field_doc }

/-- `Wrapper::to_tokens` — the wrapper struct definition; the data field
carries `#[serde(flatten)]` exactly when flattening is enabled. -/
def Wrapper.to_tokens_item (w : Wrapper) : Item :=
  .structDef w.struct_name (build_derives_token w.derive) w.struct_attrs
    [ { name := w.data_field_name
        ty := .plain w.data_struct_name
        attrs := if w.data_flattened then ["serde(flatten)"] else []
        doc := w.data_field_docs }
    , { name := w.extra_field_name
        ty := .plain w.extra_struct_name
        doc := w.extra_field_docs } ]

/-- `Wrapper::build_from_data_impl` — `impl From<Data> for Wrapper`. -/
def Wrapper.build_from_data_impl (w : Wrapper) : List Item :=
  [.fromDataImpl w.data_struct_name w.struct_name false]

/-- `Wrapper::to_wrapped_impl` — `impl Wrap for Data`. -/
def Wrapper.to_wrapped_impl (w : Wrapper) : List Item :=
  [.wrapImpl w.data_struct_name w.struct_name]

/-- `Wrapper::to_wrapped_with_impl` — `impl WrapWith<Transformer> for Data`,
building one `transform_to_nest` call per root nest field. -/
def Wrapper.to_wrapped_with_impl (w : Wrapper) (transformer : String)
    (rootNests : List ExtraNestField) : List Item :=
  [.wrapWithImpl transformer w.data_struct_name w.struct_name
    (rootNests.map (·.field_name))]

/-- `generate/types.rs` — `Extra`. -/
structure Extra where
  struct_name : String
  struct_docs : String
  struct_attrs : List String
  derive : List String
  nests : List ExtraNestField
deriving DecidableEq, Repr

/-- `Extra::new`. -/
def Extra.new (opts : ExtraOpts) (originIdent : String) (structAttrs : List String)
    (nests : List ExtraNestField) : Extra :=
  { struct_name := opts.struct_name originIdent
    struct_docs := opts.doc
    struct_attrs := structAttrs
    derive := opts.derive
    nests := nests }

/-- `Extra::to_tokens` — an optional nest is embedded as
`Option<NestStruct>`, a non-optional one as `NestStruct`. -/
def Extra.to_tokens_item (e : Extra) : Item :=
  .structDef e.struct_name (build_derives_token e.derive) e.struct_attrs
    (e.nests.map (fun n =>
      { name := n.field_name
        ty := if n.optional then FieldTy.optionOf n.type_ident
              else FieldTy.plain n.type_ident }))

/-- `Extra::build_from_data_impl` — `impl From<&Origin> for Extra`. -/
def Extra.build_from_data_impl (e : Extra) (originIdent : String) : List Item :=
  [.fromDataImpl originIdent e.struct_name true]

/-- `generate/types.rs` — `Nest` (the generation-side intermediate). -/
structure Nest where
  struct_name : String
  struct_docs : String
  struct_attrs : List String
  derive : List String
  origin_ident : String
  field_type : String
  fields : List NestField
  field_attrs : List NestFieldAttrs
  is_nested : Bool
deriving DecidableEq, Repr

/-- `Nest::new`. -/
def Nest.new (opts : NestOpts) (rootIdent : String) (structAttrs : List String)
    (fields : List NestField) (fieldAttrs : List NestFieldAttrs) : Nest :=
  { struct_name := opts.struct_name rootIdent
    struct_docs := opts.doc
    struct_attrs := structAttrs
    derive := opts.derive
    origin_ident := opts.origin rootIdent
    field_type := opts.field_type
    fields := fields
    field_attrs := fieldAttrs
    is_nested := match opts.map_strategy with
      | .nested _ => true
      | _ => false }

/-- `Nest::to_nest_impl` — `impl ToNest<NestStruct> for Origin`. -/
def Nest.to_nest_impl (n : Nest) : Item :=
  .toNestImpl n.origin_ident n.struct_name

/-- `Nest::to_tokens` — the nest struct definition (fields in stored order,
first matching field attribute attached, all fields typed with the nest's
field type), followed by the `ToNest` impl for non-nested nests. -/
def Nest.to_tokens_items (n : Nest) : List Item :=
  let fieldDefs := n.fields.map (fun f =>
    { name := f.name
      ty := FieldTy.plain n.field_type
      attrs :=
        match n.field_attrs.find? (fun a => a.field_name == f.name) with
        | some a => [a.attributes_token]
        | none => []
      doc := f.field_doc })
  [Item.structDef n.struct_name (build_derives_token n.derive) n.struct_attrs fieldDefs]
    ++ (if n.is_nested then [] else [n.to_nest_impl])

-- -- `generate.rs` — the three generation passes

/-- The `ExtraNestField` rows built from a list of child nests (the same
construction appears in `generate_wrapper_struct` for the root children
and in `generate_extra_structs` for each origin's children). -/
def extra_nest_fields_of (rootIdent : String) (nestOpts : List NestOpts) :
    List ExtraNestField :=
  nestOpts.map (fun n =>
    { field_name := n.field_name
      type_ident := n.struct_name rootIdent
      optional := n.optional })

/-- `root_extra_fields` in `generate_wrapper_struct`. -/
def root_extra_fields_of (originMap : NestOriginMap) (rootIdent : String) :
    List ExtraNestField :=
  extra_nest_fields_of rootIdent ((lookupA originMap rootIdent).getD [])

/-- The wrapper-scoped pass-through attributes resolved by
`generate_wrapper_struct`. -/
def wrapper_attrs_of (originMap : NestOriginMap) (rootIdent : String)
    (structAttrs : List NestScopedAttrs) : List String :=
  (structAttrs.filter (fun a =>
    a.is_permitted_by_filter .wrapper
      (((lookupA originMap rootIdent).getD []).map (·.id)))).map (·.attributes_token)

/-- `generate.rs` — `generate_wrapper_struct`. -/
def generate_wrapper_struct (opts : WrapperOpts) (rootIdent extraIdent : String)
    (originMap : NestOriginMap) (structAttrs : List NestScopedAttrs)
    (fromImpl : Bool) (fromWithImpl : Option String) : List Item :=
  let wrapper := Wrapper.new opts rootIdent extraIdent
    (wrapper_attrs_of originMap rootIdent structAttrs)
  let impls :=
    if fromImpl then wrapper.to_wrapped_impl ++ wrapper.build_from_data_impl
    else
      match fromWithImpl with
      | some t => wrapper.to_wrapped_with_impl t (root_extra_fields_of originMap rootIdent)
      | none => []
  [wrapper.to_tokens_item] ++ impls

/-- The extra-scoped pass-through attributes resolved by
`generate_extra_structs` for one origin's children. -/
def extra_attrs_of (structAttrs : List NestScopedAttrs) (nestOpts : List NestOpts) :
    List String :=
  (structAttrs.filter (fun a =>
    a.is_permitted_by_filter .extra (nestOpts.map (·.id)))).map (·.attributes_token)

/-- The loop body of `generate_extra_structs` for one origin entry. -/
def extra_items_for (opts : ExtraOpts) (rootIdent : String)
    (structAttrs : List NestScopedAttrs) (fromImpl : Bool)
    (originIdent : String) (nestOpts : List NestOpts) : List Item :=
  let extra := Extra.new opts originIdent (extra_attrs_of structAttrs nestOpts)
    (extra_nest_fields_of rootIdent nestOpts)
  [extra.to_tokens_item]
    ++ (if fromImpl && originIdent == rootIdent then
          extra.build_from_data_impl originIdent
        else [])

/-- `generate.rs` — `generate_extra_structs`.  The source iterates the
origin `HashMap` directly (`for (origin_ident, nest_opts) in origin_map`);
`entries` is the iteration order of that map. -/
def generate_extra_structs (opts : ExtraOpts) (rootIdent : String)
    (entries : NestOriginMap) (structAttrs : List NestScopedAttrs)
    (fromImpl : Bool) : List Item :=
  entries.flatMap (fun e => extra_items_for opts rootIdent structAttrs fromImpl e.1 e.2)

/-- The loop body of `generate_nest_structs` for one nest. -/
def nest_items_for (rootIdent : String) (structAttrs : List NestScopedAttrs)
    (nestFieldsMap : NestFieldMap) (nestFieldAttrs : NestFieldAttrMap)
    (nest : NestOpts) : List Item :=
  let fields := (lookupA nestFieldsMap nest.id).getD []
  let fieldAttrs := (lookupA nestFieldAttrs nest.id).getD []
  let nestAttrs := (structAttrs.filter
    (fun a => a.has_struct_scope_for_nest .nestScope nest.id)).map (·.attributes_token)
  (Nest.new nest rootIdent nestAttrs fields fieldAttrs).to_tokens_items

/-- `generate.rs` — `generate_nest_structs` (the dead `child_counts`
accumulation of the source is omitted: it is computed and never read).
As with the extras, `entries` is the iteration order of the origin map. -/
def generate_nest_structs (rootIdent : String) (entries : NestOriginMap)
    (structAttrs : List NestScopedAttrs) (nestFieldsMap : NestFieldMap)
    (nestFieldAttrs : NestFieldAttrMap) : List Item :=
  entries.flatMap (fun e =>
    e.2.flatMap (nest_items_for rootIdent structAttrs nestFieldsMap nestFieldAttrs))

/-- The root-origin children (`root_nests` in `generate_entrypoint`). -/
def rootNestsOf (root : DeriveItemOpts) : List NestOpts :=
  (lookupA (build_origin_map root.nest_opts root.ident) root.ident).getD []

/-- `all_from_impl` in `generate_entrypoint`: all root nests use the
reuse-`From` strategy. -/
def allFromImplOf (root : DeriveItemOpts) : Bool :=
  (rootNestsOf root).all (fun n => n.map_strategy.mapsWithFrom)

/-- `first_transform` in `generate_entrypoint`: the transformer type of
the first root nest using the transformer strategy. -/
def firstTransformOf (root : DeriveItemOpts) : Option String :=
  ((rootNestsOf root).find? (fun n => n.map_strategy.mapsWithTransform)).bind
    (fun n => n.map_strategy.mapTransformType)

/-- `transform_all_with` in `generate_entrypoint`: the shared transformer
type, when every root nest delegates to that same one (the source builds
`first_strategy = Transform { with: first_transform }` and compares each
nest's strategy against it). -/
def transformAllWithOf (root : DeriveItemOpts) : Option String :=
  match firstTransformOf root with
  | some w =>
    if (rootNestsOf root).all (fun n => n.map_strategy == NestMapStrategy.transform w) then
      some w
    else none
  | none => none

/-- The pure tail of `generate_entrypoint`, after all validation has
succeeded: strategy selection over the root nests followed by the three
generation passes, with the origin map consumed in insertion order. -/
def generate_output (root : DeriveItemOpts) (nestFields : NestFieldMap)
    (structAttrs : List NestScopedAttrs) (fieldAttrs : NestFieldAttrMap) :
    List Item :=
  let extraIdent := root.extra_opts.struct_name root.ident
  let originMap := build_origin_map root.nest_opts root.ident
  generate_wrapper_struct root.wrapper_opts root.ident extraIdent originMap
      structAttrs (allFromImplOf root) (transformAllWithOf root)
    ++ generate_extra_structs root.extra_opts root.ident originMap structAttrs
        (allFromImplOf root)
    ++ generate_nest_structs root.ident originMap structAttrs nestFields fieldAttrs

/-- `generate.rs` — `generate_entrypoint`: build and validate the nest
field map, parse and validate the pass-through annotations, then emit the
wrapper, extra and nest structs plus conversion impls. -/
def generate_entrypoint (root : DeriveItemOpts) : Except GenError (List Item) := do
  let nestIds := root.nest_opts.map (·.id)
  let nestFields ← build_nest_fields_map root.fields
  validate_nests nestFields nestIds
  let structAttrs ← parse_forward_attrs root.attrs true
  validate_forward_attrs structAttrs nestFields
  let fieldAttrs ← parse_field_attrs root.fields nestFields
  pure (generate_output root nestFields structAttrs fieldAttrs)

-- -- `mapping/types.rs` — the `NestRepo` registry (built by the
-- `parse.rs`/`State` path; `generate_entrypoint` does not use it)

/-- `mapping/types.rs` — `NestStructAttrInfo`. -/
structure NestStructAttrInfo where
  wrapper : List String := []
  extra : List String := []
  nest : List String := []
deriving DecidableEq, Repr

/-- `mapping/types.rs` — `NestInfo` (its `fields` map is keyed by field
name). -/
structure NestInfo where
  ident : String
  opts : NestOpts
  struct_attrs : NestStructAttrInfo := {}
  fields : List (String × NestField) := []
deriving DecidableEq, Repr

/-- `mapping/types.rs` — `NestRepo`. -/
structure NestRepo where
  root_ident : String
  nest_map : List (String × NestInfo) := []
  origin_children_map : List (String × List String) := []
  nest_parent_map : List (String × String) := []
  nest_id_map : List (String × String) := []
  nest_id_span_map : List (String × String) := []
deriving DecidableEq, Repr

/-- The fatal diagnostics of `NestRepo::insert`: the `emit_error!` at the
first conflicting declaration's span, followed by the `abort!` at the new
declaration's span, are modelled as one structured error carrying both
locations. -/
inductive RepoError where
  | duplicateId (id first_span new_span : String)
  | duplicateStructName (ident first_span new_span : String)
deriving DecidableEq, Repr

/-- `NestRepo::new`. -/
def NestRepo.new (rootIdent : String) : NestRepo := { root_ident := rootIdent }

/-- `NestRepo::id_exists`. -/
def NestRepo.id_exists (r : NestRepo) (id : String) : Bool :=
  (lookupA r.nest_id_map id).isSome

/-- `NestRepo::get_id_spanned`. -/
def NestRepo.get_id_spanned (r : NestRepo) (id : String) : Option String :=
  lookupA r.nest_id_span_map id

/-- `NestRepo::get_by_ident`. -/
def NestRepo.get_by_ident (r : NestRepo) (ident : String) : Option NestInfo :=
  lookupA r.nest_map ident

/-- `NestRepo::insert` — fails on a duplicate nest id or a duplicate
resolved struct name, referencing the first conflicting declaration's
location together with the new one; otherwise records the nest in all
registry maps. -/
def NestRepo.insert (r : NestRepo) (opts : NestOpts) : Except RepoError NestRepo :=
  if r.id_exists opts.id then
    .error (.duplicateId opts.id ((r.get_id_spanned opts.id).getD "") opts.id_span)
  else
    let nestIdent := opts.struct_name r.root_ident
    match r.get_by_ident nestIdent with
    | some existing =>
      .error (.duplicateStructName nestIdent existing.opts.struct_name_span opts.id_span)
    | none =>
      let origin := opts.origin r.root_ident
      .ok { r with
        nest_parent_map := r.nest_parent_map ++ [(nestIdent, origin)]
        nest_id_map := r.nest_id_map ++ [(opts.id, nestIdent)]
        nest_id_span_map := r.nest_id_span_map ++ [(opts.id, opts.id_span)]
        origin_children_map :=
          if (lookupA r.origin_children_map origin).isSome then
            updateA r.origin_children_map origin (fun l => l ++ [nestIdent])
          else r.origin_children_map ++ [(origin, [nestIdent])]
        nest_map := r.nest_map ++ [(nestIdent, { ident := nestIdent, opts := opts })] }

/-- `NestRepo::is_parent_ident`. -/
def NestRepo.is_parent_ident (r : NestRepo) (ident : String) : Bool :=
  match lookupA r.origin_children_map ident with
  | some children => !children.isEmpty
  | none => false

-- -- Concrete Configs used by the claim theorems

/-- Scenario A nest: group `g1` under the root, reuse-`From` strategy. -/
def g1From : NestOpts :=
  { id := "g1", id_span := "g1-decl", field_type := "String",
    map_strategy := .fromImpl }

/-- Deeply nested group `g2`, origin = `g1`'s generated struct. -/
def g2Nested : NestOpts :=
  { id := "g2", id_span := "g2-decl", field_type := "String",
    map_strategy := .nested "RNestedG1" }

/-- Transformer-strategy variants of the two root groups. -/
def g1Trans : NestOpts :=
  { id := "g1", id_span := "g1-decl", field_type := "String",
    map_strategy := .transform "MyTransform" }

def g2Trans : NestOpts :=
  { id := "g2", id_span := "g2-decl", field_type := "String",
    map_strategy := .transform "MyTransform" }

def g2From : NestOpts :=
  { id := "g2", id_span := "g2-decl", field_type := "String",
    map_strategy := .fromImpl }

/-- Scenario A Config: root `R { a, b }`, both fields in `g1`. -/
def cfgA : DeriveItemOpts :=
  { ident := "R"
    fields :=
      [ { ident := some "a", nest_in_opts := [{ nest_id := "g1" }] }
      , { ident := some "b", nest_in_opts := [{ nest_id := "g1" }] } ]
    nest_opts := [g1From] }

/-- Config with no groups at all. -/
def cfgEmpty : DeriveItemOpts :=
  { ident := "R"
    fields := [ { ident := some "a" } ] }

/-- Scenario D Config: `g1` under root, `g2` deeply nested under `g1`. -/
def cfgDeep : DeriveItemOpts :=
  { ident := "R"
    fields :=
      [ { ident := some "a", nest_in_opts := [{ nest_id := "g1" }] }
      , { ident := some "b", nest_in_opts := [{ nest_id := "g2" }] } ]
    nest_opts := [g1From, g2Nested] }

/-- Config with two groups declaring the same identity `g1`. -/
def cfgDupId : DeriveItemOpts :=
  { ident := "R"
    fields := [ { ident := some "a", nest_in_opts := [{ nest_id := "g1" }] } ]
    nest_opts := [g1From, { g1From with id_span := "g1-second-decl" }] }

/-- Config with two groups resolving to the same generated struct name. -/
def cfgDupName : DeriveItemOpts :=
  { ident := "R"
    fields := [ { ident := some "a", nest_in_opts := [{ nest_id := "g1" }] } ]
    nest_opts := [g1From, { g2From with rename := some "RNestedG1", rename_span := "g2-rename" }] }

/-- Scenario C Config: sibling groups with mixed strategies under root. -/
def cfgMixed : DeriveItemOpts :=
  { ident := "R"
    fields :=
      [ { ident := some "a", nest_in_opts := [{ nest_id := "g1" }] }
      , { ident := some "b", nest_in_opts := [{ nest_id := "g2" }] } ]
    nest_opts := [g1From, g2Trans] }

/-- Uniform shared-transformer Config. -/
def cfgTrans : DeriveItemOpts :=
  { ident := "R"
    fields :=
      [ { ident := some "a", nest_in_opts := [{ nest_id := "g1" }] }
      , { ident := some "b", nest_in_opts := [{ nest_id := "g2" }] } ]
    nest_opts := [g1Trans, g2Trans] }

/-- Config whose field `a` references an undeclared group `ghost`. -/
def cfgUnknownFieldRef : DeriveItemOpts :=
  { ident := "R"
    fields := [ { ident := some "a", nest_in_opts := [{ nest_id := "ghost" }] } ]
    nest_opts := [] }

-- -- Accessors over emitted output, used to state the claims

/-- Whether an item is a struct definition with the given name. -/
def Item.isStructNamed (nm : String) : Item → Bool
  | .structDef n _ _ _ => n == nm
  | _ => false

/-- Whether an item is one of the emitted conversion-function impls. -/
def Item.isConversionItem : Item → Bool
  | .structDef _ _ _ _ => false
  | _ => true

/-- Whether an item is an origin-level conversion (a wrapper or extra
conversion, as opposed to a per-group `ToNest` impl). -/
def Item.isOriginLevelConversion : Item → Bool
  | .fromDataImpl _ _ _ => true
  | .wrapImpl _ _ => true
  | .wrapWithImpl _ _ _ _ => true
  | _ => false

def Item.isWrapWith : Item → Bool
  | .wrapWithImpl _ _ _ _ => true
  | _ => false

/-- Whether an item mentions the given type name (as struct name, field
type, or conversion source/target). -/
def Item.namesType (t : String) : Item → Bool
  | .structDef n _ _ flds =>
    n == t || flds.any (fun f =>
      match f.ty with
      | .plain x => x == t
      | .optionOf x => x == t)
  | .fromDataImpl a b _ => a == t || b == t
  | .wrapImpl a b => a == t || b == t
  | .wrapWithImpl _ a b _ => a == t || b == t
  | .toNestImpl a b => a == t || b == t

/-- The attribute list of the named field of a struct item. -/
def Item.fieldAttrs (i : Item) (fname : String) : List String :=
  match i with
  | .structDef _ _ _ flds =>
    ((flds.find? (fun f => f.name == fname)).map (·.attrs)).getD []
  | _ => []

/-- The field list of the first struct definition with the given name. -/
def structFieldsOf (out : List Item) (nm : String) : List FieldDef :=
  match out.find? (Item.isStructNamed nm) with
  | some (.structDef _ _ _ flds) => flds
  | _ => []

/-- The derive list of the first struct definition with the given name. -/
def structDerivesOf (out : List Item) (nm : String) : List String :=
  match out.find? (Item.isStructNamed nm) with
  | some (.structDef _ ds _ _) => ds
  | _ => []

/-- The emitted item list of a successful run (empty on error). -/
def exceptOut (e : Except GenError (List Item)) : List Item :=
  match e with
  | .ok l => l
  | .error _ => []

def exceptIsOk (e : Except GenError (List Item)) : Bool :=
  match e with
  | .ok _ => true
  | .error _ => false

-- -- Predicates used to state the strategy-consistency and error claims

/-- Whether all children of an origin share one mapping-strategy value
(the negation is the claim's "mix strategies or name distinct transformer
types"). -/
def strategiesUniform (children : List NestOpts) : Bool :=
  match children with
  | [] => true
  | c :: _ => children.all (fun n => n.map_strategy == c.map_strategy)

def declaredNestIds (cfg : DeriveItemOpts) : List String :=
  cfg.nest_opts.map (·.id)

/-- Some field's group list names an undeclared group. -/
def fieldRefsUnknownNest (cfg : DeriveItemOpts) : Bool :=
  cfg.fields.any (fun f =>
    f.ident.isSome &&
      f.nest_in_opts.any (fun ni => !(declaredNestIds cfg).contains ni.nest_id))

/-- A pass-through annotation restricts itself to an undeclared group (an
annotation forwarding no attribute produces no scoped entry and is
excluded). -/
def attrRefsUnknownNest (ids : List String) (pa : PassthroughAttribute) : Bool :=
  !pa.attr.isEmpty && pa.nest.any (fun i => !ids.contains i)

def structAttrRefsUnknownNest (cfg : DeriveItemOpts) : Bool :=
  cfg.attrs.any (attrRefsUnknownNest (declaredNestIds cfg))

def fieldAttrRefsUnknownNest (cfg : DeriveItemOpts) : Bool :=
  cfg.fields.any (fun f => f.attrs.any (attrRefsUnknownNest (declaredNestIds cfg)))

/-- The claim's premise: the Config references a never-declared group from
a field's group list or from a pass-through annotation. -/
def hasUnknownNestRef (cfg : DeriveItemOpts) : Bool :=
  fieldRefsUnknownNest cfg || structAttrRefsUnknownNest cfg || fieldAttrRefsUnknownNest cfg

/-- Errors that report an unresolvable group name together with the
referencing declaration (the field name, resp. the annotation's span). -/
def reportsNestRef : GenError → Bool
  | .unknownNestField _ _ => true
  | .unknownNestAttr _ _ => true
  | _ => false

/-- Side conditions isolating the unknown-reference failure: the field map
builds (no duplicate-field error preempts), every field is named, every
declared group has at least one assigned field, and the annotations
deserialize (no duplicate-restriction/context error preempts). -/
def c6Clean (cfg : DeriveItemOpts) : Bool :=
  (match build_nest_fields_map cfg.fields with
   | .ok m => (declaredNestIds cfg).all (fun i => (lookupA m i).isSome)
   | .error _ => false) &&
  cfg.fields.all (fun f => f.ident.isSome) &&
  (match parse_forward_attrs cfg.attrs true with
   | .ok _ => true
   | .error _ => false) &&
  cfg.fields.all (fun f =>
    match parse_forward_attrs f.attrs false with
    | .ok _ => true
    | .error _ => false)

/-- The fields assigned to group `nid`, in declaration order (one entry
per assigning `nest_in` record, carrying its per-field documentation). -/
def assignedNestFields (fields : List DeriveItemFieldOpts) (nid : String) :
    List NestField :=
  fields.flatMap (fun f =>
    match f.ident with
    | none => []
    | some nm =>
      (f.nest_in_opts.filter (fun ni => ni.nest_id == nid)).map
        (fun ni => { name := nm, field_doc := ni.field_doc }))

/-- The names of the fields assigned to group `nid`, in declaration
order. -/
def assignedFieldNames (fields : List DeriveItemFieldOpts) (nid : String) :
    List String :=
  (assignedNestFields fields nid).map (·.name)

/-- Scenario B Config: like scenario A but the group is marked optional. -/
def cfgOpt : DeriveItemOpts :=
  { cfgA with nest_opts := [{ g1From with optional := true }] }

/-- Config specifying the baseline derive `Debug` again on the wrapper. -/
def cfgDeriveDup : DeriveItemOpts :=
  { cfgA with wrapper_opts := { derive := ["Debug"] } }

end Shrinkwrap

namespace Shrinkwrap

-- -- Shared lemmas: `Except` plumbing and association-list reasoning

theorem exceptBind_ok {ε α β : Type} {e : Except ε α} {f : α → Except ε β} {b : β}
    (h : (e >>= f) = Except.ok b) : ∃ a, e = Except.ok a ∧ f a = Except.ok b := by
  cases e with
  | error err => simp [Bind.bind, Except.bind] at h
  | ok a => exact ⟨a, rfl, by simpa [Bind.bind, Except.bind] using h⟩

theorem exceptBind_error {ε α β : Type} {e : Except ε α} {f : α → Except ε β} {err : ε}
    (h : e = Except.error err) : (e >>= f) = Except.error err := by
  subst h; rfl

theorem exceptBind_ok_left {ε α β : Type} {e : Except ε α} {f : α → Except ε β} {a : α}
    (h : e = Except.ok a) : (e >>= f) = f a := by
  subst h; rfl

@[simp] theorem lookupA_nil {α : Type} (k : String) :
    lookupA ([] : List (String × α)) k = none :=
  rfl

theorem lookupA_cons {α : Type} (e : String × α) (m : List (String × α)) (k : String) :
    lookupA (e :: m) k = if e.1 == k then some e.2 else lookupA m k :=
  rfl

theorem lookupA_append_some {α : Type} {m : List (String × α)} {k : String} {v : α}
    (m' : List (String × α)) (h : lookupA m k = some v) :
    lookupA (m ++ m') k = some v := by
  induction m with
  | nil => simp at h
  | cons e t ih =>
    rw [List.cons_append, lookupA_cons]
    rw [lookupA_cons] at h
    by_cases he : (e.1 == k) = true
    · rw [if_pos he] at h ⊢; exact h
    · rw [if_neg he] at h ⊢; exact ih h

theorem lookupA_append_none {α : Type} {m : List (String × α)} {k : String}
    (m' : List (String × α)) (h : lookupA m k = none) :
    lookupA (m ++ m') k = lookupA m' k := by
  induction m with
  | nil => simp
  | cons e t ih =>
    rw [lookupA_cons] at h
    by_cases he : (e.1 == k) = true
    · rw [if_pos he] at h; exact absurd h (by simp)
    · rw [if_neg he] at h
      rw [List.cons_append, lookupA_cons, if_neg he]
      exact ih h

theorem lookupA_updateA_self {α : Type} (m : List (String × α)) (k : String) (f : α → α) :
    lookupA (updateA m k f) k = (lookupA m k).map f := by
  induction m with
  | nil => rfl
  | cons e t ih =>
    by_cases he : (e.1 == k) = true
    · have he1 : e.1 = k := by simpa using he
      simp [updateA, lookupA_cons, he, he1]
    · simp only [updateA, List.map_cons, if_neg he]
      rw [lookupA_cons, lookupA_cons, if_neg he, if_neg he]
      simpa [updateA] using ih

theorem lookupA_updateA_ne {α : Type} (m : List (String × α)) {k k' : String}
    (f : α → α) (h : (k == k') = false) :
    lookupA (updateA m k f) k' = lookupA m k' := by
  induction m with
  | nil => rfl
  | cons e t ih =>
    by_cases he : (e.1 == k) = true
    · have he1 : e.1 = k := by simpa using he
      simp only [updateA, List.map_cons, if_pos he]
      rw [lookupA_cons, lookupA_cons]
      simp only [he1, h]
      simpa [updateA] using ih
    · simp only [updateA, List.map_cons, if_neg he]
      rw [lookupA_cons, lookupA_cons]
      by_cases he' : (e.1 == k') = true
      · rw [if_pos he', if_pos he']
      · rw [if_neg he', if_neg he']
        simpa [updateA] using ih

theorem mem_of_lookupA {α : Type} {m : List (String × α)} {k : String} {v : α}
    (h : lookupA m k = some v) : (k, v) ∈ m := by
  induction m with
  | nil => simp at h
  | cons e t ih =>
    rw [lookupA_cons] at h
    by_cases he : (e.1 == k) = true
    · rw [if_pos he] at h
      have h1 : e.1 = k := by simpa using he
      have h2 : e.2 = v := by simpa using h
      have hev : e = (k, v) := by
        cases e
        simp only at h1 h2
        rw [h1, h2]
      rw [← hev]
      exact List.mem_cons_self e t
    · rw [if_neg he] at h
      exact List.mem_cons_of_mem e (ih h)

-- -- Shared lemmas: characterization of `build_origin_map`

theorem lookupA_originMapInsert_self (m : NestOriginMap) (k : String) (n : NestOpts) :
    lookupA (originMapInsert m k n) k = some (((lookupA m k).getD []) ++ [n]) := by
  unfold originMapInsert
  cases h : lookupA m k with
  | some l =>
    rw [if_pos (by rfl)]
    rw [lookupA_updateA_self, h]
    rfl
  | none =>
    rw [if_neg (by simp)]
    rw [lookupA_append_none _ h, lookupA_cons]
    simp

theorem lookupA_originMapInsert_ne (m : NestOriginMap) {k k' : String} (n : NestOpts)
    (h : (k == k') = false) :
    lookupA (originMapInsert m k n) k' = lookupA m k' := by
  unfold originMapInsert
  by_cases hm : (lookupA m k).isSome = true
  · rw [if_pos hm]
    exact lookupA_updateA_ne m _ h
  · rw [if_neg hm]
    cases hk' : lookupA m k' with
    | some v => exact lookupA_append_some _ hk'
    | none =>
      rw [lookupA_append_none _ hk', lookupA_cons]
      simp [h]

theorem lookupA_buildOriginMapGo_some (root k : String) (ns : List NestOpts) :
    ∀ (m : NestOriginMap) (l : List NestOpts), lookupA m k = some l →
      lookupA (buildOriginMapGo root m ns) k =
        some (l ++ ns.filter (fun n => n.origin root == k)) := by
  induction ns with
  | nil => intro m l h; simpa [buildOriginMapGo] using h
  | cons n rest ih =>
    intro m l h
    rw [buildOriginMapGo]
    by_cases h0 : (n.origin root == k) = true
    · have hk : n.origin root = k := by simpa using h0
      have hins : lookupA (originMapInsert m (n.origin root) n) k = some (l ++ [n]) := by
        rw [hk, lookupA_originMapInsert_self, h]
        rfl
      rw [ih _ _ hins, List.filter_cons, if_pos h0]
      simp
    · have h0f : (n.origin root == k) = false := by simpa using h0
      have hins : lookupA (originMapInsert m (n.origin root) n) k = some l := by
        rw [lookupA_originMapInsert_ne m n h0f]; exact h
      rw [ih _ _ hins, List.filter_cons, if_neg h0]

theorem lookupA_buildOriginMapGo_none (root k : String) (ns : List NestOpts) :
    ∀ (m : NestOriginMap), lookupA m k = none →
      lookupA (buildOriginMapGo root m ns) k =
        (if (ns.filter (fun n => n.origin root == k)).isEmpty then none
         else some (ns.filter (fun n => n.origin root == k))) := by
  induction ns with
  | nil => intro m h; simpa [buildOriginMapGo] using h
  | cons n rest ih =>
    intro m h
    rw [buildOriginMapGo]
    by_cases h0 : (n.origin root == k) = true
    · have hk : n.origin root = k := by simpa using h0
      have hins : lookupA (originMapInsert m (n.origin root) n) k = some [n] := by
        rw [hk, lookupA_originMapInsert_self, h]
        rfl
      rw [lookupA_buildOriginMapGo_some root k rest _ _ hins, List.filter_cons, if_pos h0]
      simp
    · have h0f : (n.origin root == k) = false := by simpa using h0
      have hins : lookupA (originMapInsert m (n.origin root) n) k = none := by
        rw [lookupA_originMapInsert_ne m n h0f]; exact h
      rw [ih _ hins, List.filter_cons, if_neg h0]

/-- The characterizing property of `build_origin_map`: looking up an
origin returns exactly the nests declared with that origin, in declaration
order (or nothing, when the origin has no children). -/
theorem lookupA_build_origin_map (nests : List NestOpts) (root k : String) :
    lookupA (build_origin_map nests root) k =
      (if (nests.filter (fun n => n.origin root == k)).isEmpty then none
       else some (nests.filter (fun n => n.origin root == k))) :=
  lookupA_buildOriginMapGo_none root k nests [] rfl

theorem rootNestsOf_eq_filter (cfg : DeriveItemOpts) :
    rootNestsOf cfg = cfg.nest_opts.filter (fun n => n.origin cfg.ident == cfg.ident) := by
  unfold rootNestsOf
  rw [lookupA_build_origin_map]
  by_cases h : (cfg.nest_opts.filter (fun n => n.origin cfg.ident == cfg.ident)).isEmpty = true
  · rw [if_pos h]
    exact (List.isEmpty_iff.mp h).symm
  · rw [if_neg h]
    rfl

/-- A nonempty origin lookup pins down the entry: the children are exactly
the declaration-order filter. -/
theorem lookupA_build_origin_map_some {nests : List NestOpts} {root k : String}
    {l : List NestOpts} (h : lookupA (build_origin_map nests root) k = some l) :
    l = nests.filter (fun n => n.origin root == k) ∧ l ≠ [] := by
  rw [lookupA_build_origin_map] at h
  by_cases he : (nests.filter (fun n => n.origin root == k)).isEmpty = true
  · rw [if_pos he] at h; exact absurd h (by simp)
  · rw [if_neg he] at h
    have hl : l = nests.filter (fun n => n.origin root == k) := by
      exact (Option.some_inj.mp h).symm
    refine ⟨hl, ?_⟩
    rw [hl]
    intro hnil
    exact he (by simp [hnil])

/-- A declared nest is found under its origin in the origin map. -/
theorem nest_mem_origin_map {nests : List NestOpts} (root : String) {n : NestOpts}
    (h : n ∈ nests) :
    ∃ l, lookupA (build_origin_map nests root) (n.origin root) = some l ∧ n ∈ l := by
  rw [lookupA_build_origin_map]
  have hmem : n ∈ nests.filter (fun m => m.origin root == n.origin root) :=
    List.mem_filter.mpr ⟨h, beq_self_eq_true _⟩
  have hne : (nests.filter (fun m => m.origin root == n.origin root)).isEmpty ≠ true := by
    intro he
    rw [List.isEmpty_iff.mp he] at hmem
    simp at hmem
  rw [if_neg hne]
  exact ⟨_, rfl, hmem⟩

-- -- Shared lemmas: decomposition of a successful generation run

theorem generate_entrypoint_ok {cfg : DeriveItemOpts} {out : List Item}
    (h : generate_entrypoint cfg = Except.ok out) :
    ∃ nf sa fa,
      build_nest_fields_map cfg.fields = Except.ok nf ∧
      validate_nests nf (cfg.nest_opts.map (·.id)) = Except.ok () ∧
      parse_forward_attrs cfg.attrs true = Except.ok sa ∧
      validate_forward_attrs sa nf = Except.ok () ∧
      parse_field_attrs cfg.fields nf = Except.ok fa ∧
      out = generate_output cfg nf sa fa := by
  unfold generate_entrypoint at h
  obtain ⟨nf, hnf, h⟩ := exceptBind_ok h
  obtain ⟨u, hv, h⟩ := exceptBind_ok h
  obtain ⟨sa, hsa, h⟩ := exceptBind_ok h
  obtain ⟨u2, hvf, h⟩ := exceptBind_ok h
  obtain ⟨fa, hfa, h⟩ := exceptBind_ok h
  cases u; cases u2
  refine ⟨nf, sa, fa, hnf, hv, hsa, hvf, hfa, ?_⟩
  have : (Except.ok (generate_output cfg nf sa fa) : Except GenError (List Item)) = Except.ok out := by
    simpa [pure, Except.pure] using h
  simpa using this.symm

-- -- Shared lemmas: the shapes of the three generation passes

theorem generate_wrapper_struct_from_items (opts : WrapperOpts) (root extra : String)
    (om : NestOriginMap) (sa : List NestScopedAttrs) (fw : Option String) :
    generate_wrapper_struct opts root extra om sa true fw =
      [(Wrapper.new opts root extra (wrapper_attrs_of om root sa)).to_tokens_item,
       Item.wrapImpl root (opts.struct_name root),
       Item.fromDataImpl root (opts.struct_name root) false] := by
  simp [generate_wrapper_struct, Wrapper.to_wrapped_impl, Wrapper.build_from_data_impl,
    Wrapper.new]

theorem generate_wrapper_struct_transform_items (opts : WrapperOpts) (root extra : String)
    (om : NestOriginMap) (sa : List NestScopedAttrs) (t : String) :
    generate_wrapper_struct opts root extra om sa false (some t) =
      [(Wrapper.new opts root extra (wrapper_attrs_of om root sa)).to_tokens_item,
       Item.wrapWithImpl t root (opts.struct_name root)
         (((lookupA om root).getD []).map (·.field_name))] := by
  simp only [generate_wrapper_struct, Wrapper.to_wrapped_with_impl, Wrapper.new,
    Bool.false_eq_true, if_neg, not_false_iff, root_extra_fields_of, extra_nest_fields_of,
    List.map_map]
  simp [Function.comp]

theorem generate_wrapper_struct_none_items (opts : WrapperOpts) (root extra : String)
    (om : NestOriginMap) (sa : List NestScopedAttrs) :
    generate_wrapper_struct opts root extra om sa false none =
      [(Wrapper.new opts root extra (wrapper_attrs_of om root sa)).to_tokens_item] := by
  simp [generate_wrapper_struct]

theorem extra_items_for_shape (opts : ExtraOpts) (root : String)
    (sa : List NestScopedAttrs) (fi : Bool) (origin : String) (l : List NestOpts) :
    extra_items_for opts root sa fi origin l =
      (Extra.new opts origin (extra_attrs_of sa l)
          (extra_nest_fields_of root l)).to_tokens_item ::
        (if fi && (origin == root) then
          [Item.fromDataImpl origin (opts.struct_name origin) true]
         else []) := by
  by_cases h : (fi && (origin == root)) = true
  · simp [extra_items_for, Extra.build_from_data_impl, Extra.new, h]
  · simp [extra_items_for, h]

theorem nest_items_for_shape (root : String) (sa : List NestScopedAttrs)
    (nfm : NestFieldMap) (nfam : NestFieldAttrMap) (nest : NestOpts) :
    nest_items_for root sa nfm nfam nest =
      (Nest.new nest root
          ((sa.filter (fun a => a.has_struct_scope_for_nest .nestScope nest.id)).map
            (·.attributes_token))
          ((lookupA nfm nest.id).getD []) ((lookupA nfam nest.id).getD [])).to_tokens_items :=
  rfl

-- -- Shared lemmas: characterization of `build_nest_fields_map`

theorem insertNestField_ok {m : NestFieldMap} {nid : String} {f : NestField}
    {m' : NestFieldMap} (h : insertNestField m nid f = Except.ok m') :
    (∃ fs, lookupA m nid = some fs ∧ nestFieldContains fs f = false ∧
      m' = updateA m nid (fun l => l ++ [f])) ∨
    (lookupA m nid = none ∧ m' = m ++ [(nid, [f])]) := by
  unfold insertNestField at h
  cases hl : lookupA m nid with
  | some fs =>
    rw [hl] at h
    dsimp only at h
    by_cases hc : nestFieldContains fs f = true
    · rw [if_pos hc] at h; simp at h
    · rw [if_neg hc] at h
      exact Or.inl ⟨fs, rfl, by simpa using hc, (Except.ok.inj h).symm⟩
  | none =>
    rw [hl] at h
    dsimp only at h
    exact Or.inr ⟨rfl, (Except.ok.inj h).symm⟩

theorem insertFieldNests_lookup (nm nid : String) (nis : List NestInOpts) :
    ∀ (m m' : NestFieldMap), insertFieldNests m nm nis = Except.ok m' →
      (∀ fs, lookupA m nid = some fs →
        lookupA m' nid = some (fs ++ (nis.filter (fun ni => ni.nest_id == nid)).map
          (fun ni => ⟨nm, ni.field_doc⟩))) ∧
      (lookupA m nid = none →
        lookupA m' nid =
          (if (nis.filter (fun ni => ni.nest_id == nid)).isEmpty then none
           else some ((nis.filter (fun ni => ni.nest_id == nid)).map
             (fun ni => ⟨nm, ni.field_doc⟩)))) := by
  induction nis with
  | nil =>
    intro m m' h
    have hm : m' = m := (Except.ok.inj h).symm
    subst hm
    constructor
    · intro fs hfs; simpa using hfs
    · intro hn; simpa using hn
  | cons ni rest ih =>
    intro m m' h
    rw [insertFieldNests] at h
    obtain ⟨m1, h1, h2⟩ := exceptBind_ok h
    by_cases hk : (ni.nest_id == nid) = true
    · have hkeq : ni.nest_id = nid := by simpa using hk
      constructor
      · intro fs hfs
        have hm1 : lookupA m1 nid = some (fs ++ [⟨nm, ni.field_doc⟩]) := by
          rcases insertNestField_ok h1 with ⟨fs0, hl0, _, hup⟩ | ⟨hl0, hap⟩
          · rw [hkeq] at hl0
            rw [hl0] at hfs
            have : fs0 = fs := Option.some_inj.mp hfs
            subst this
            rw [hup, hkeq, lookupA_updateA_self, hl0]
            rfl
          · rw [hkeq] at hl0
            rw [hl0] at hfs
            exact absurd hfs (by simp)
        have := ((ih m1 m' h2).1 _ hm1)
        rw [this, List.filter_cons, if_pos hk, List.map_cons]
        simp
      · intro hn
        have hm1 : lookupA m1 nid = some [⟨nm, ni.field_doc⟩] := by
          rcases insertNestField_ok h1 with ⟨fs0, hl0, _, hup⟩ | ⟨hl0, hap⟩
          · rw [hkeq] at hl0
            rw [hl0] at hn
            exact absurd hn (by simp)
          · rw [hap, hkeq]
            rw [lookupA_append_none _ hn, lookupA_cons]
            simp
        have := ((ih m1 m' h2).1 _ hm1)
        rw [this, List.filter_cons, if_pos hk, List.map_cons]
        simp
    · have hkf : (ni.nest_id == nid) = false := by simpa using hk
      have hm1eq : lookupA m1 nid = lookupA m nid := by
        rcases insertNestField_ok h1 with ⟨fs0, hl0, _, hup⟩ | ⟨hl0, hap⟩
        · rw [hup]
          exact lookupA_updateA_ne m _ hkf
        · rw [hap]
          cases hmn : lookupA m nid with
          | some v => exact lookupA_append_some _ hmn
          | none =>
            rw [lookupA_append_none _ hmn, lookupA_cons]
            simp [hkf]
      constructor
      · intro fs hfs
        have := ((ih m1 m' h2).1 fs (by rw [hm1eq]; exact hfs))
        rw [this, List.filter_cons, if_neg hk]
      · intro hn
        have := ((ih m1 m' h2).2 (by rw [hm1eq]; exact hn))
        rw [this, List.filter_cons, if_neg hk]

theorem buildNestFieldsMapGo_lookup (nid : String) (fields : List DeriveItemFieldOpts) :
    ∀ (m m' : NestFieldMap), buildNestFieldsMapGo m fields = Except.ok m' →
      (∀ fs, lookupA m nid = some fs →
        lookupA m' nid = some (fs ++ assignedNestFields fields nid)) ∧
      (lookupA m nid = none →
        lookupA m' nid =
          (if (assignedNestFields fields nid).isEmpty then none
           else some (assignedNestFields fields nid))) := by
  induction fields with
  | nil =>
    intro m m' h
    have hm : m' = m := (Except.ok.inj h).symm
    subst hm
    constructor
    · intro fs hfs; simpa [assignedNestFields] using hfs
    · intro hn; simpa [assignedNestFields] using hn
  | cons f rest ih =>
    intro m m' h
    rw [buildNestFieldsMapGo] at h
    cases hid : f.ident with
    | none =>
      rw [hid] at h
      have hrest := ih m m' h
      constructor
      · intro fs hfs
        rw [hrest.1 fs hfs]
        simp [assignedNestFields, List.flatMap_cons, hid]
      · intro hn
        rw [hrest.2 hn]
        simp [assignedNestFields, List.flatMap_cons, hid]
    | some nm =>
      rw [hid] at h
      obtain ⟨m1, h1, h2⟩ := exceptBind_ok h
      have hcontr : assignedNestFields (f :: rest) nid =
          ((f.nest_in_opts.filter (fun ni => ni.nest_id == nid)).map
            (fun ni => (⟨nm, ni.field_doc⟩ : NestField)))
          ++ assignedNestFields rest nid := by
        simp [assignedNestFields, List.flatMap_cons, hid]
      constructor
      · intro fs hfs
        have hm1 := (insertFieldNests_lookup nm nid f.nest_in_opts m m1 h1).1 fs hfs
        have := (ih m1 m' h2).1 _ hm1
        rw [this, hcontr, List.append_assoc]
      · intro hn
        have hm1 := (insertFieldNests_lookup nm nid f.nest_in_opts m m1 h1).2 hn
        by_cases he : ((f.nest_in_opts.filter (fun ni => ni.nest_id == nid)).isEmpty) = true
        · rw [if_pos he] at hm1
          have := (ih m1 m' h2).2 hm1
          rw [this, hcontr]
          have hfe : (f.nest_in_opts.filter (fun ni => ni.nest_id == nid)) = [] :=
            List.isEmpty_iff.mp he
          simp [hfe]
        · rw [if_neg he] at hm1
          have := (ih m1 m' h2).1 _ hm1
          rw [this, hcontr]
          have hne : (f.nest_in_opts.filter (fun ni => ni.nest_id == nid)) ≠ [] := by
            intro hc; exact he (by simp [hc])
          have : (((f.nest_in_opts.filter (fun ni => ni.nest_id == nid)).map
              (fun ni => (⟨nm, ni.field_doc⟩ : NestField)))
              ++ assignedNestFields rest nid).isEmpty = false := by
            cases hfc : (f.nest_in_opts.filter (fun ni => ni.nest_id == nid)) with
            | nil => exact absurd hfc hne
            | cons a l => simp
          rw [if_neg (by rw [this]; simp)]

theorem build_nest_fields_map_lookup {fields : List DeriveItemFieldOpts}
    {m' : NestFieldMap} (h : build_nest_fields_map fields = Except.ok m') (nid : String) :
    lookupA m' nid =
      (if (assignedNestFields fields nid).isEmpty then none
       else some (assignedNestFields fields nid)) :=
  (buildNestFieldsMapGo_lookup nid fields [] m' h).2 rfl

-- -- Shared lemmas: the unknown-group-reference error paths

theorem exceptBind_error_inv {ε α β : Type} {e : Except ε α} {f : α → Except ε β}
    {err : ε} (h : (e >>= f) = Except.error err) :
    e = Except.error err ∨ ∃ a, e = Except.ok a ∧ f a = Except.error err := by
  cases e with
  | error e1 =>
    left
    have : e1 = err := by simpa [Bind.bind, Except.bind] using h
    rw [this]
  | ok a => exact Or.inr ⟨a, rfl, by simpa [Bind.bind, Except.bind] using h⟩

theorem insertNestField_values_nonempty {m : NestFieldMap} {nid : String}
    {f : NestField} {m' : NestFieldMap} (h : insertNestField m nid f = Except.ok m')
    (hm : ∀ e ∈ m, e.2 ≠ []) : ∀ e ∈ m', e.2 ≠ [] := by
  rcases insertNestField_ok h with ⟨fs, hl, hc, hup⟩ | ⟨hl, hap⟩
  · subst hup
    intro e he
    obtain ⟨e0, he0, heq⟩ := List.mem_map.mp he
    by_cases hk : (e0.1 == nid) = true
    · rw [if_pos hk] at heq
      rw [← heq]
      simp
    · rw [if_neg hk] at heq
      rw [← heq]
      exact hm e0 he0
  · subst hap
    intro e he
    rcases List.mem_append.mp he with h1 | h2
    · exact hm e h1
    · have h2' := List.mem_singleton.mp h2
      rw [h2']
      simp

theorem insertFieldNests_values_nonempty {nm : String} {nis : List NestInOpts} :
    ∀ {m m' : NestFieldMap}, insertFieldNests m nm nis = Except.ok m' →
      (∀ e ∈ m, e.2 ≠ []) → ∀ e ∈ m', e.2 ≠ [] := by
  induction nis with
  | nil =>
    intro m m' h hm
    have : m' = m := (Except.ok.inj h).symm
    subst this
    exact hm
  | cons ni rest ih =>
    intro m m' h hm
    rw [insertFieldNests] at h
    obtain ⟨m1, h1, h2⟩ := exceptBind_ok h
    exact ih h2 (insertNestField_values_nonempty h1 hm)

theorem buildNestFieldsMapGo_values_nonempty {fields : List DeriveItemFieldOpts} :
    ∀ {m m' : NestFieldMap}, buildNestFieldsMapGo m fields = Except.ok m' →
      (∀ e ∈ m, e.2 ≠ []) → ∀ e ∈ m', e.2 ≠ [] := by
  induction fields with
  | nil =>
    intro m m' h hm
    have : m' = m := (Except.ok.inj h).symm
    subst this
    exact hm
  | cons f rest ih =>
    intro m m' h hm
    rw [buildNestFieldsMapGo] at h
    cases hid : f.ident with
    | none =>
      rw [hid] at h
      exact ih h hm
    | some nm =>
      rw [hid] at h
      obtain ⟨m1, h1, h2⟩ := exceptBind_ok h
      exact ih h2 (insertFieldNests_values_nonempty h1 hm)

theorem build_nest_fields_map_values_nonempty {fields : List DeriveItemFieldOpts}
    {m' : NestFieldMap} (h : build_nest_fields_map fields = Except.ok m') :
    ∀ e ∈ m', e.2 ≠ [] :=
  buildNestFieldsMapGo_values_nonempty h (by simp)

theorem validateNestsGo_ok (allIds : List String) :
    ∀ {m : NestFieldMap}, (∀ e ∈ m, allIds.contains e.1 = true) →
      validateNestsGo allIds m = Except.ok () := by
  intro m
  induction m with
  | nil => intro _; rfl
  | cons e t ih =>
    intro h
    obtain ⟨nid, fs⟩ := e
    rw [validateNestsGo.eq_def]
    dsimp only
    rw [if_pos (h (nid, fs) (List.mem_cons_self _ _))]
    exact ih (fun e' he' => h e' (List.mem_cons_of_mem _ he'))

theorem validateNestsGo_error (allIds : List String) :
    ∀ {m : NestFieldMap}, (∃ e ∈ m, allIds.contains e.1 = false) →
      (∀ e ∈ m, e.2 ≠ []) →
      ∃ nid fn, validateNestsGo allIds m = Except.error (.unknownNestField nid fn) ∧
        allIds.contains nid = false := by
  intro m
  induction m with
  | nil =>
    intro hex _
    obtain ⟨e, he, _⟩ := hex
    simp at he
  | cons e t ih =>
    intro hex hne
    obtain ⟨nid, fs⟩ := e
    rw [validateNestsGo.eq_def]
    dsimp only
    by_cases hc : allIds.contains nid = true
    · rw [if_pos hc]
      apply ih
      · obtain ⟨e', he', hbad⟩ := hex
        rcases List.mem_cons.mp he' with heq | hmem
        · rw [heq] at hbad
          rw [hbad] at hc
          exact absurd hc (by simp)
        · exact ⟨e', hmem, hbad⟩
      · exact fun e' he' => hne e' (List.mem_cons_of_mem _ he')
    · have hcf : allIds.contains nid = false := by simpa using hc
      rw [if_neg hc]
      have hfs : fs ≠ [] := hne (nid, fs) (List.mem_cons_self _ _)
      cases hfs2 : fs with
      | nil => exact absurd hfs2 hfs
      | cons f fs' => exact ⟨nid, f.name, rfl, hcf⟩

theorem resolveNestIds_sub : ∀ {acc l r : List String}, resolveNestIds acc l = Except.ok r →
    (∀ i ∈ acc, i ∈ r) ∧ (∀ i ∈ l, i ∈ r) := by
  intro acc l
  induction l generalizing acc with
  | nil =>
    intro r h
    have : r = acc := (Except.ok.inj h).symm
    subst this
    exact ⟨fun i hi => hi, by simp⟩
  | cons j rest ih =>
    intro r h
    rw [resolveNestIds] at h
    by_cases hc : acc.contains j = true
    · rw [if_pos hc] at h; simp at h
    · rw [if_neg hc] at h
      obtain ⟨hacc, hrest⟩ := ih h
      refine ⟨fun i hi => hacc i (List.mem_append.mpr (Or.inl hi)), ?_⟩
      intro i hi
      rcases List.mem_cons.mp hi with heq | h'
      · subst heq
        exact hacc i (List.mem_append.mpr (Or.inr (List.mem_singleton.mpr rfl)))
      · exact hrest i h'

theorem parse_forward_attrs_restriction :
    ∀ {attrs : List PassthroughAttribute} {allow : Bool} {sa : List NestScopedAttrs},
    parse_forward_attrs attrs allow = Except.ok sa →
    ∀ {pa : PassthroughAttribute}, pa ∈ attrs → ∀ {i : String}, i ∈ pa.nest →
    pa.attr ≠ [] →
    ∃ a ∈ sa, ∃ ids, a.nests = NestSelection.restricted ids ∧ i ∈ ids := by
  intro attrs
  induction attrs with
  | nil => intro allow sa _ pa hpa; simp at hpa
  | cons q rest ih =>
    intro allow sa hok pa hpa i hi hne
    rw [parse_forward_attrs] at hok
    obtain ⟨first, hfirst, hok2⟩ := exceptBind_ok hok
    obtain ⟨more, hmore, hpure⟩ := exceptBind_ok hok2
    have hsa : sa = first ++ more := by
      have : (Except.ok (first ++ more) : Except GenError (List NestScopedAttrs)) = Except.ok sa := by
        simpa [pure, Except.pure] using hpure
      simpa using this.symm
    rcases List.mem_cons.mp hpa with heq | hmem
    · subst heq
      unfold forwardAttrsOfOne at hfirst
      by_cases hctx : (pa.context.isSome && !allow) = true
      · rw [if_pos hctx] at hfirst; simp at hfirst
      · rw [if_neg hctx] at hfirst
        cases hres : resolveNestIds [] pa.nest with
        | error i0 => rw [hres] at hfirst; simp at hfirst
        | ok nestIds =>
          rw [hres] at hfirst
          dsimp only at hfirst
          have hin : i ∈ nestIds := (resolveNestIds_sub hres).2 i hi
          have hempty : nestIds.isEmpty = false := by
            cases nestIds with
            | nil => simp at hin
            | cons x xs => rfl
          have hfirsteq : first = pa.attr.map (fun a =>
              { nests := NestSelection.restricted nestIds
                attributes_token := a
                nests_span := some pa.span
                context := pa.context.getD .all }) := by
            have := Except.ok.inj hfirst
            rw [← this]
            rw [hempty]
            rfl
          cases hat : pa.attr with
          | nil => exact absurd hat hne
          | cons att atts =>
            refine ⟨{ nests := NestSelection.restricted nestIds
                      attributes_token := att
                      nests_span := some pa.span
                      context := pa.context.getD .all }, ?_, nestIds, rfl, hin⟩
            rw [hsa, hfirsteq, hat]
            simp
    · obtain ⟨a, hamem, ids, hids, hiin⟩ := ih hmore hmem hi hne
      exact ⟨a, by rw [hsa]; exact List.mem_append.mpr (Or.inr hamem), ids, hids, hiin⟩

theorem validateForwardAttr_error {a : NestScopedAttrs} {m : NestFieldMap} {e : GenError}
    (h : validateForwardAttr a m = Except.error e) :
    ∃ nid, e = .unknownNestAttr nid a.nests_span ∧ (keysA m).contains nid = false := by
  unfold validateForwardAttr at h
  cases hn : a.nests with
  | unrestricted => rw [hn] at h; simp at h
  | restricted ids =>
    rw [hn] at h
    dsimp only at h
    cases hf : ids.find? (fun i => !(keysA m).contains i) with
    | none => rw [hf] at h; simp at h
    | some bad =>
      rw [hf] at h
      have hbc : (keysA m).contains bad = false := by
        have := List.find?_some hf
        simpa using this
      exact ⟨bad, (Except.error.inj h).symm, hbc⟩

theorem validate_forward_attrs_error_shape :
    ∀ {attrs : List NestScopedAttrs} {m : NestFieldMap} {e : GenError},
    validate_forward_attrs attrs m = Except.error e →
    ∃ nid sp, e = .unknownNestAttr nid sp ∧ (keysA m).contains nid = false := by
  intro attrs
  induction attrs with
  | nil => intro m e h; simp [validate_forward_attrs] at h
  | cons a rest ih =>
    intro m e h
    rw [validate_forward_attrs] at h
    rcases exceptBind_error_inv h with h1 | ⟨u, hu, h2⟩
    · obtain ⟨nid, heq, hbc⟩ := validateForwardAttr_error h1
      exact ⟨nid, a.nests_span, heq, hbc⟩
    · cases u
      exact ih h2

theorem validate_forward_attrs_errors :
    ∀ {attrs : List NestScopedAttrs} {m : NestFieldMap},
    (∃ a ∈ attrs, ∃ ids, a.nests = NestSelection.restricted ids ∧
      ids.any (fun i => !(keysA m).contains i) = true) →
    ∃ e, validate_forward_attrs attrs m = Except.error e := by
  intro attrs
  induction attrs with
  | nil =>
    intro m h
    obtain ⟨a, ha, _⟩ := h
    simp at ha
  | cons a rest ih =>
    intro m h
    rw [validate_forward_attrs]
    cases hva : validateForwardAttr a m with
    | error e1 => exact ⟨e1, exceptBind_error rfl⟩
    | ok u =>
      cases u
      show ∃ e, validate_forward_attrs rest m = Except.error e
      apply ih
      obtain ⟨a', ha', ids, hids, hbad⟩ := h
      rcases List.mem_cons.mp ha' with heq | hmem
      · exfalso
        subst heq
        unfold validateForwardAttr at hva
        rw [hids] at hva
        dsimp only at hva
        obtain ⟨i, hi, hib⟩ := List.any_eq_true.mp hbad
        have hsome : (ids.find? (fun i => !(keysA m).contains i)).isSome = true :=
          List.find?_isSome.mpr ⟨i, hi, hib⟩
        cases hf : ids.find? (fun i => !(keysA m).contains i) with
        | none => rw [hf] at hsome; simp at hsome
        | some b => rw [hf] at hva; simp at hva
      · exact ⟨a', hmem, ids, hids, hbad⟩

theorem parseFieldAttrsGo_error_shape :
    ∀ {fields : List DeriveItemFieldOpts} {m : NestFieldMap} {e : GenError},
    parseFieldAttrsGo m fields = Except.error e →
    (∀ f ∈ fields, f.ident ≠ none) →
    (∀ f ∈ fields, ∃ p, parse_forward_attrs f.attrs false = Except.ok p) →
    ∃ nid sp, e = GenError.unknownNestAttr nid sp ∧ (keysA m).contains nid = false := by
  intro fields
  induction fields with
  | nil => intro m e h _ _; simp [parseFieldAttrsGo] at h
  | cons f rest ih =>
    intro m e h hid hp
    rw [parseFieldAttrsGo.eq_def] at h
    dsimp only at h
    cases hfid : f.ident with
    | none => exact absurd hfid (hid f (List.mem_cons_self _ _))
    | some nm =>
      rw [hfid] at h
      dsimp only at h
      obtain ⟨p, hpf⟩ := hp f (List.mem_cons_self _ _)
      rw [exceptBind_ok_left hpf] at h
      rcases exceptBind_error_inv h with h1 | ⟨u, hu, h2⟩
      · exact validate_forward_attrs_error_shape h1
      · cases u
        rcases exceptBind_error_inv h2 with h3 | ⟨more, hm3, h4⟩
        · exact ih h3 (fun g hg => hid g (List.mem_cons_of_mem _ hg))
            (fun g hg => hp g (List.mem_cons_of_mem _ hg))
        · simp [pure, Except.pure] at h4

theorem parseFieldAttrsGo_errors :
    ∀ {fields : List DeriveItemFieldOpts} {m : NestFieldMap},
    (∃ f ∈ fields, ∃ pa ∈ f.attrs, pa.attr ≠ [] ∧
      ∃ i ∈ pa.nest, (keysA m).contains i = false) →
    (∀ f ∈ fields, f.ident ≠ none) →
    (∀ f ∈ fields, ∃ p, parse_forward_attrs f.attrs false = Except.ok p) →
    ∃ e, parseFieldAttrsGo m fields = Except.error e := by
  intro fields
  induction fields with
  | nil =>
    intro m h _ _
    obtain ⟨f, hf, _⟩ := h
    simp at hf
  | cons f rest ih =>
    intro m hbad hid hp
    rw [parseFieldAttrsGo.eq_def]
    dsimp only
    cases hfid : f.ident with
    | none => exact ⟨.expectFailure "field ident unwrap", rfl⟩
    | some nm =>
      dsimp only
      obtain ⟨p, hpf⟩ := hp f (List.mem_cons_self _ _)
      rw [exceptBind_ok_left hpf]
      cases hvf : validate_forward_attrs p m with
      | error e1 => exact ⟨e1, exceptBind_error rfl⟩
      | ok u =>
        cases u
        obtain ⟨f', hf', pa, hpa, hane, i, hi, hic⟩ := hbad
        rcases List.mem_cons.mp hf' with heq | hmem
        · exfalso
          subst heq
          obtain ⟨a, hap, ids, hids, hiin⟩ := parse_forward_attrs_restriction hpf hpa hi hane
          have hany : ids.any (fun j => !(keysA m).contains j) = true :=
            List.any_eq_true.mpr ⟨i, hiin, by simpa using hic⟩
          obtain ⟨e', he'⟩ := validate_forward_attrs_errors ⟨a, hap, ids, hids, hany⟩
          rw [hvf] at he'
          simp at he'
        · obtain ⟨e2, he2⟩ := ih ⟨f', hmem, pa, hpa, hane, i, hi, hic⟩
            (fun g hg => hid g (List.mem_cons_of_mem _ hg))
            (fun g hg => hp g (List.mem_cons_of_mem _ hg))
          refine ⟨e2, ?_⟩
          show (parseFieldAttrsGo m rest >>= fun more =>
            pure ((nm, p) :: more)) = Except.error e2
          exact exceptBind_error he2

theorem parse_field_attrs_error {fields : List DeriveItemFieldOpts} {m : NestFieldMap}
    {e : GenError} (h : parseFieldAttrsGo m fields = Except.error e) :
    parse_field_attrs fields m = Except.error e := by
  unfold parse_field_attrs
  exact exceptBind_error h

theorem generate_entrypoint_error_validate {cfg : DeriveItemOpts} {nf : NestFieldMap}
    {e : GenError} (hnf : build_nest_fields_map cfg.fields = Except.ok nf)
    (hv : validate_nests nf (cfg.nest_opts.map (·.id)) = Except.error e) :
    generate_entrypoint cfg = Except.error e := by
  unfold generate_entrypoint
  rw [exceptBind_ok_left hnf]
  exact exceptBind_error hv

theorem generate_entrypoint_error_struct_attrs {cfg : DeriveItemOpts} {nf : NestFieldMap}
    {sa : List NestScopedAttrs} {e : GenError}
    (hnf : build_nest_fields_map cfg.fields = Except.ok nf)
    (hv : validate_nests nf (cfg.nest_opts.map (·.id)) = Except.ok ())
    (hsa : parse_forward_attrs cfg.attrs true = Except.ok sa)
    (hvf : validate_forward_attrs sa nf = Except.error e) :
    generate_entrypoint cfg = Except.error e := by
  unfold generate_entrypoint
  rw [exceptBind_ok_left hnf, exceptBind_ok_left hv, exceptBind_ok_left hsa]
  exact exceptBind_error hvf

theorem generate_entrypoint_error_field_attrs {cfg : DeriveItemOpts} {nf : NestFieldMap}
    {sa : List NestScopedAttrs} {e : GenError}
    (hnf : build_nest_fields_map cfg.fields = Except.ok nf)
    (hv : validate_nests nf (cfg.nest_opts.map (·.id)) = Except.ok ())
    (hsa : parse_forward_attrs cfg.attrs true = Except.ok sa)
    (hvf : validate_forward_attrs sa nf = Except.ok ())
    (hfa : parse_field_attrs cfg.fields nf = Except.error e) :
    generate_entrypoint cfg = Except.error e := by
  unfold generate_entrypoint
  rw [exceptBind_ok_left hnf, exceptBind_ok_left hv, exceptBind_ok_left hsa,
    exceptBind_ok_left hvf]
  exact exceptBind_error hfa

theorem assigned_mem_of_ref {fields : List DeriveItemFieldOpts}
    {f : DeriveItemFieldOpts} {nm : String} {ni : NestInOpts}
    (hf : f ∈ fields) (hid : f.ident = some nm) (hni : ni ∈ f.nest_in_opts) :
    (⟨nm, ni.field_doc⟩ : NestField) ∈ assignedNestFields fields ni.nest_id := by
  unfold assignedNestFields
  refine List.mem_flatMap.mpr ⟨f, hf, ?_⟩
  rw [hid]
  exact List.mem_map.mpr ⟨ni, List.mem_filter.mpr ⟨hni, beq_self_eq_true _⟩, rfl⟩

theorem lookup_isSome_of_ref {fields : List DeriveItemFieldOpts} {m' : NestFieldMap}
    (h : build_nest_fields_map fields = Except.ok m') {f : DeriveItemFieldOpts}
    {nm : String} {ni : NestInOpts} (hf : f ∈ fields) (hid : f.ident = some nm)
    (hni : ni ∈ f.nest_in_opts) :
    ∃ fs, lookupA m' ni.nest_id = some fs := by
  have hz := build_nest_fields_map_lookup h ni.nest_id
  have hmem := assigned_mem_of_ref hf hid hni
  have hne : (assignedNestFields fields ni.nest_id).isEmpty = false := by
    cases hx : assignedNestFields fields ni.nest_id with
    | nil => rw [hx] at hmem; simp at hmem
    | cons _ _ => rfl
  rw [if_neg (by rw [hne]; simp)] at hz
  exact ⟨_, hz⟩

theorem exists_lookup_of_keysA_contains {α : Type} {m : List (String × α)} {i : String}
    (h : (keysA m).contains i = true) : ∃ e ∈ m, e.1 = i := by
  have h2 : i ∈ keysA m := by simpa using h
  obtain ⟨e, he, heq⟩ := List.mem_map.mp h2
  exact ⟨e, he, heq⟩

theorem Nest_to_tokens_fields_names (n : Nest) :
    ∃ ds ats flds rest,
      n.to_tokens_items = Item.structDef n.struct_name ds ats flds :: rest ∧
      flds.map (·.name) = n.fields.map (·.name) := by
  refine ⟨_, _, _, _, rfl, ?_⟩
  rw [List.map_map]
  simp [Function.comp]

theorem generate_wrapper_struct_head (opts : WrapperOpts) (root extra : String)
    (om : NestOriginMap) (sa : List NestScopedAttrs) (fi : Bool) (fw : Option String) :
    ∃ impls, generate_wrapper_struct opts root extra om sa fi fw =
      (Wrapper.new opts root extra (wrapper_attrs_of om root sa)).to_tokens_item :: impls := by
  unfold generate_wrapper_struct
  exact ⟨_, rfl⟩

theorem Extra_new_to_tokens (opts : ExtraOpts) (origin : String) (ats : List String)
    (nfs : List ExtraNestField) :
    (Extra.new opts origin ats nfs).to_tokens_item =
      Item.structDef (opts.struct_name origin) (build_derives_token opts.derive) ats
        (nfs.map (fun n =>
          { name := n.field_name
            ty := if n.optional then FieldTy.optionOf n.type_ident
                  else FieldTy.plain n.type_ident })) :=
  rfl

theorem mem_generate_extra_of_entry {opts : ExtraOpts} {root : String}
    {om : NestOriginMap} {sa : List NestScopedAttrs} {fi : Bool}
    {k : String} {l : List NestOpts} {i : Item}
    (hmem : (k, l) ∈ om) (hi : i ∈ extra_items_for opts root sa fi k l) :
    i ∈ generate_extra_structs opts root om sa fi :=
  List.mem_flatMap.mpr ⟨(k, l), hmem, hi⟩

theorem mem_generate_nests_of_entry {root : String} {om : NestOriginMap}
    {sa : List NestScopedAttrs} {nfm : NestFieldMap} {nfam : NestFieldAttrMap}
    {k : String} {l : List NestOpts} {nest : NestOpts} {i : Item}
    (hmem : (k, l) ∈ om) (hn : nest ∈ l) (hi : i ∈ nest_items_for root sa nfm nfam nest) :
    i ∈ generate_nest_structs root om sa nfm nfam :=
  List.mem_flatMap.mpr ⟨(k, l), hmem, List.mem_flatMap.mpr ⟨nest, hn, hi⟩⟩

theorem extra_items_not_wrapWith {opts : ExtraOpts} {root : String}
    {sa : List NestScopedAttrs} {fi : Bool} {origin : String} {l : List NestOpts}
    {i : Item} (h : i ∈ extra_items_for opts root sa fi origin l) :
    Item.isWrapWith i = false := by
  rw [extra_items_for_shape] at h
  rcases List.mem_cons.mp h with h1 | h2
  · subst h1; rfl
  · by_cases hc : (fi && (origin == root)) = true
    · rw [if_pos hc] at h2
      have : i = Item.fromDataImpl origin (opts.struct_name origin) true :=
        List.mem_singleton.mp h2
      subst this; rfl
    · rw [if_neg hc] at h2
      simp at h2

theorem extra_items_false_not_conversion {opts : ExtraOpts} {root : String}
    {sa : List NestScopedAttrs} {origin : String} {l : List NestOpts}
    {i : Item} (h : i ∈ extra_items_for opts root sa false origin l) :
    Item.isOriginLevelConversion i = false := by
  rw [extra_items_for_shape] at h
  rcases List.mem_cons.mp h with h1 | h2
  · subst h1; rfl
  · simp at h2

theorem nest_to_tokens_items_not_conversion (n : Nest) {i : Item}
    (h : i ∈ n.to_tokens_items) :
    Item.isWrapWith i = false ∧ Item.isOriginLevelConversion i = false := by
  dsimp only [Nest.to_tokens_items] at h
  rcases List.mem_append.mp h with h1 | h2
  · have h1' := List.mem_singleton.mp h1
    subst h1'
    exact ⟨rfl, rfl⟩
  · by_cases hn : n.is_nested = true
    · rw [if_pos hn] at h2; simp at h2
    · rw [if_neg hn] at h2
      have h2' := List.mem_singleton.mp h2
      subst h2'
      exact ⟨rfl, rfl⟩

theorem nest_items_not_conversion {root : String} {sa : List NestScopedAttrs}
    {nfm : NestFieldMap} {nfam : NestFieldAttrMap} {nest : NestOpts} {i : Item}
    (h : i ∈ nest_items_for root sa nfm nfam nest) :
    Item.isWrapWith i = false ∧ Item.isOriginLevelConversion i = false := by
  rw [nest_items_for_shape] at h
  exact nest_to_tokens_items_not_conversion _ h

theorem countP_wrapWith_extras (opts : ExtraOpts) (root : String) (om : NestOriginMap)
    (sa : List NestScopedAttrs) (fi : Bool) :
    (generate_extra_structs opts root om sa fi).countP Item.isWrapWith = 0 := by
  refine List.countP_eq_zero.mpr ?_
  intro i hi
  obtain ⟨e, _, hie⟩ := List.mem_flatMap.mp hi
  simp [extra_items_not_wrapWith hie]

theorem countP_wrapWith_nests (root : String) (om : NestOriginMap)
    (sa : List NestScopedAttrs) (nfm : NestFieldMap) (nfam : NestFieldAttrMap) :
    (generate_nest_structs root om sa nfm nfam).countP Item.isWrapWith = 0 := by
  refine List.countP_eq_zero.mpr ?_
  intro i hi
  obtain ⟨e, _, hie⟩ := List.mem_flatMap.mp hi
  obtain ⟨nest, _, hin⟩ := List.mem_flatMap.mp hie
  simp [(nest_items_not_conversion hin).1]

theorem countP_conversion_extras_false (opts : ExtraOpts) (root : String)
    (om : NestOriginMap) (sa : List NestScopedAttrs) :
    (generate_extra_structs opts root om sa false).countP Item.isOriginLevelConversion = 0 := by
  refine List.countP_eq_zero.mpr ?_
  intro i hi
  obtain ⟨e, _, hie⟩ := List.mem_flatMap.mp hi
  simp [extra_items_false_not_conversion hie]

theorem countP_conversion_nests (root : String) (om : NestOriginMap)
    (sa : List NestScopedAttrs) (nfm : NestFieldMap) (nfam : NestFieldAttrMap) :
    (generate_nest_structs root om sa nfm nfam).countP Item.isOriginLevelConversion = 0 := by
  refine List.countP_eq_zero.mpr ?_
  intro i hi
  obtain ⟨e, _, hie⟩ := List.mem_flatMap.mp hi
  obtain ⟨nest, _, hin⟩ := List.mem_flatMap.mp hie
  simp [(nest_items_not_conversion hin).2]

theorem mapsWithFrom_eq {s : NestMapStrategy} (h : s.mapsWithFrom = true) :
    s = .fromImpl := by
  cases s with
  | fromImpl => rfl
  | transform w => simp [NestMapStrategy.mapsWithFrom] at h
  | nested o => simp [NestMapStrategy.mapsWithFrom] at h

theorem NestOpts_origin_of_fromImpl {n : NestOpts} (root : String)
    (h : n.map_strategy = .fromImpl) : n.origin root = root := by
  unfold NestOpts.origin; rw [h]

theorem NestOpts_origin_of_transform {n : NestOpts} (root w : String)
    (h : n.map_strategy = .transform w) : n.origin root = root := by
  unfold NestOpts.origin; rw [h]

theorem strategiesUniform_of_all {children : List NestOpts} {s : NestMapStrategy}
    (hne : children ≠ []) (h : ∀ n ∈ children, n.map_strategy = s) :
    strategiesUniform children = true := by
  cases children with
  | nil => exact absurd rfl hne
  | cons a l =>
    unfold strategiesUniform
    refine List.all_eq_true.mpr ?_
    intro n hn
    rw [h n hn, h a (List.mem_cons_self a l)]
    exact beq_self_eq_true s

theorem rootNestsOf_of_lookup {cfg : DeriveItemOpts} {children : List NestOpts}
    (h : lookupA (build_origin_map cfg.nest_opts cfg.ident) cfg.ident = some children) :
    rootNestsOf cfg = children := by
  unfold rootNestsOf
  rw [h]
  rfl

theorem generate_output_eq (cfg : DeriveItemOpts) (nf : NestFieldMap)
    (sa : List NestScopedAttrs) (fa : NestFieldAttrMap) :
    generate_output cfg nf sa fa =
      generate_wrapper_struct cfg.wrapper_opts cfg.ident
          (cfg.extra_opts.struct_name cfg.ident)
          (build_origin_map cfg.nest_opts cfg.ident) sa
          (allFromImplOf cfg) (transformAllWithOf cfg)
        ++ generate_extra_structs cfg.extra_opts cfg.ident
            (build_origin_map cfg.nest_opts cfg.ident) sa (allFromImplOf cfg)
        ++ generate_nest_structs cfg.ident (build_origin_map cfg.nest_opts cfg.ident)
            sa nf fa :=
  rfl

/-- **C1** (the claim fails on the code): the extra-struct emission pass is
not a function of the origin map's *contents* — feeding the same two-entry
origin map (built from the scenario-D Config) to `generate_extra_structs`
in two different entry orders yields different output sequences.  Since
the source iterates a `std::collections::HashMap` with unspecified
iteration order at this point, the emitted output is not deterministic,
contrary to the byte-identical-output requirement. -/
theorem c1_generate_extra_structs_depends_on_origin_map_order :
    ((build_origin_map cfgDeep.nest_opts cfgDeep.ident).reverse).Perm
      (build_origin_map cfgDeep.nest_opts cfgDeep.ident) ∧
    generate_extra_structs {} cfgDeep.ident
        ((build_origin_map cfgDeep.nest_opts cfgDeep.ident).reverse) [] false ≠
      generate_extra_structs {} cfgDeep.ident
        (build_origin_map cfgDeep.nest_opts cfgDeep.ident) [] false :=
  ⟨List.reverse_perm _, by decide⟩

/-- **C2 counterexample**: for the group-free Config `cfgEmpty`, "all of
the root origin's child groups use the From strategy" holds vacuously, yet
the generator emits no extra conversion function (`From<&R> for RExtra`) —
indeed no extra struct at all — refuting the claim as stated. -/
theorem c2_counterexample_empty_origin_vacuous_from :
    (((lookupA (build_origin_map cfgEmpty.nest_opts cfgEmpty.ident)
        cfgEmpty.ident).getD []).all (fun n => n.map_strategy.mapsWithFrom)) = true ∧
    exceptIsOk (generate_entrypoint cfgEmpty) = true ∧
    (Item.fromDataImpl "R" "RExtra" true) ∉ exceptOut (generate_entrypoint cfgEmpty) ∧
    (exceptOut (generate_entrypoint cfgEmpty)).countP (Item.isStructNamed "RExtra") = 0 := by
  refine ⟨by decide, by decide, by decide, by decide⟩

/-- **C2 (amended)**: for every Config and every origin *with at least one
child group* (an origin present in the origin map): if all child groups
use the reuse-`From` strategy, direct conversion functions are emitted for
the wrapper (`From<Data>` plus the `Wrap` impl), for the extra
(`From<&Origin>`) and for each child group (its `ToNest` impl); if all
child groups delegate to the same transformer type, exactly one
transformer-delegation function is emitted, requiring per-group
transformer capability for every child; if the child groups mix
strategies or name distinct transformer types, no origin-level conversion
function is emitted. -/
theorem c2_strategy_consistency_amended (cfg : DeriveItemOpts) (out : List Item)
    (hok : generate_entrypoint cfg = Except.ok out)
    (origin : String) (children : List NestOpts)
    (hchild : lookupA (build_origin_map cfg.nest_opts cfg.ident) origin = some children) :
    (children.all (fun n => n.map_strategy.mapsWithFrom) = true →
      Item.wrapImpl cfg.ident (cfg.wrapper_opts.struct_name cfg.ident) ∈ out ∧
      Item.fromDataImpl cfg.ident (cfg.wrapper_opts.struct_name cfg.ident) false ∈ out ∧
      Item.fromDataImpl origin (cfg.extra_opts.struct_name origin) true ∈ out ∧
      ∀ n ∈ children, Item.toNestImpl origin (n.struct_name cfg.ident) ∈ out) ∧
    (∀ w, children.all (fun n => n.map_strategy == NestMapStrategy.transform w) = true →
      out.countP Item.isWrapWith = 1 ∧
      Item.wrapWithImpl w cfg.ident (cfg.wrapper_opts.struct_name cfg.ident)
        (children.map (·.field_name)) ∈ out) ∧
    (strategiesUniform children = false →
      out.countP Item.isOriginLevelConversion = 0) := by
  obtain ⟨nf, sa, fa, hnf, hv, hsa, hvf, hfa, hout⟩ := generate_entrypoint_ok hok
  obtain ⟨hfl, hne⟩ := lookupA_build_origin_map_some hchild
  have horig : ∀ n ∈ children, n.origin cfg.ident = origin := by
    intro n hn
    rw [hfl] at hn
    simpa using (List.mem_filter.mp hn).2
  obtain ⟨a, l, hchl⟩ : ∃ a l, children = a :: l := by
    cases children with
    | nil => exact absurd rfl hne
    | cons a l => exact ⟨a, l, rfl⟩
  have hamem : a ∈ children := by rw [hchl]; exact List.mem_cons_self a l
  refine ⟨?_, ?_, ?_⟩
  · -- uniform reuse-`From` strategy
    intro hall
    have hallm := List.all_eq_true.mp hall
    have hstrat : ∀ n ∈ children, n.map_strategy = .fromImpl := fun n hn =>
      mapsWithFrom_eq (hallm n hn)
    have horigin_root : origin = cfg.ident := by
      have h1 := horig a hamem
      rw [NestOpts_origin_of_fromImpl cfg.ident (hstrat a hamem)] at h1
      exact h1.symm
    subst horigin_root
    have hrn : rootNestsOf cfg = children := rootNestsOf_of_lookup hchild
    have hflag : allFromImplOf cfg = true := by
      unfold allFromImplOf; rw [hrn]; exact hall
    have hA := generate_wrapper_struct_from_items cfg.wrapper_opts cfg.ident
      (cfg.extra_opts.struct_name cfg.ident) (build_origin_map cfg.nest_opts cfg.ident)
      sa (transformAllWithOf cfg)
    have hentry : (cfg.ident, children) ∈ build_origin_map cfg.nest_opts cfg.ident :=
      mem_of_lookupA hchild
    refine ⟨?_, ?_, ?_, ?_⟩
    · rw [hout, generate_output_eq, hflag, hA]
      refine List.mem_append.mpr (Or.inl (List.mem_append.mpr (Or.inl ?_)))
      simp
    · rw [hout, generate_output_eq, hflag, hA]
      refine List.mem_append.mpr (Or.inl (List.mem_append.mpr (Or.inl ?_)))
      simp
    · have hmemE : Item.fromDataImpl cfg.ident (cfg.extra_opts.struct_name cfg.ident) true ∈
          extra_items_for cfg.extra_opts cfg.ident sa (allFromImplOf cfg) cfg.ident children := by
        rw [extra_items_for_shape, hflag]
        simp
      have hB := mem_generate_extra_of_entry hentry hmemE
      rw [hout, generate_output_eq]
      exact List.mem_append.mpr (Or.inl (List.mem_append.mpr (Or.inr hB)))
    · intro n hn
      have hsn := hstrat n hn
      have hmemN : Item.toNestImpl cfg.ident (n.struct_name cfg.ident) ∈
          nest_items_for cfg.ident sa nf fa n := by
        rw [nest_items_for_shape]
        dsimp only [Nest.to_tokens_items]
        refine List.mem_append.mpr (Or.inr ?_)
        have hnest : (Nest.new n cfg.ident
            ((sa.filter (fun at_ => at_.has_struct_scope_for_nest .nestScope n.id)).map
              (·.attributes_token))
            ((lookupA nf n.id).getD []) ((lookupA fa n.id).getD [])).is_nested = false := by
          simp [Nest.new, hsn]
        rw [if_neg (by rw [hnest]; simp)]
        simp [Nest.new, Nest.to_nest_impl, NestOpts.origin, hsn]
      have hC := mem_generate_nests_of_entry hentry hn hmemN
      rw [hout, generate_output_eq]
      exact List.mem_append.mpr (Or.inr hC)
  · -- uniform shared-transformer strategy
    intro w hall
    have hallm := List.all_eq_true.mp hall
    have hstrat : ∀ n ∈ children, n.map_strategy = .transform w := fun n hn =>
      eq_of_beq (hallm n hn)
    have horigin_root : origin = cfg.ident := by
      have h1 := horig a hamem
      rw [NestOpts_origin_of_transform cfg.ident w (hstrat a hamem)] at h1
      exact h1.symm
    subst horigin_root
    have hrn : rootNestsOf cfg = children := rootNestsOf_of_lookup hchild
    have hff : allFromImplOf cfg = false := by
      unfold allFromImplOf
      rw [hrn, hchl]
      simp [List.all_cons, hstrat a hamem, NestMapStrategy.mapsWithFrom]
    have hfind : children.find? (fun n => n.map_strategy.mapsWithTransform) = some a := by
      rw [hchl]
      apply List.find?_cons_of_pos
      rw [hstrat a hamem]
      rfl
    have hft : firstTransformOf cfg = some w := by
      unfold firstTransformOf
      rw [hrn, hfind]
      simp [Option.bind, hstrat a hamem, NestMapStrategy.mapTransformType]
    have htw : transformAllWithOf cfg = some w := by
      unfold transformAllWithOf
      rw [hft]
      dsimp only
      rw [hrn, if_pos hall]
    have hA := generate_wrapper_struct_transform_items cfg.wrapper_opts cfg.ident
      (cfg.extra_opts.struct_name cfg.ident) (build_origin_map cfg.nest_opts cfg.ident)
      sa w
    have hAnames : ((lookupA (build_origin_map cfg.nest_opts cfg.ident) cfg.ident).getD
        []).map (·.field_name) = children.map (·.field_name) := by
      rw [hchild]
      rfl
    constructor
    · rw [hout, generate_output_eq, hff, htw, hA]
      rw [List.countP_append, List.countP_append]
      rw [countP_wrapWith_extras, countP_wrapWith_nests]
      simp [List.countP_cons, Item.isWrapWith, Wrapper.to_tokens_item, Wrapper.new]
    · rw [hout, generate_output_eq, hff, htw, hA]
      refine List.mem_append.mpr (Or.inl (List.mem_append.mpr (Or.inl ?_)))
      rw [hAnames]
      simp
  · -- mixed strategies / distinct transformer types
    intro hmix
    have hmixa : children.all (fun n => n.map_strategy == a.map_strategy) = false := by
      unfold strategiesUniform at hmix
      rw [hchl] at hmix
      rw [hchl]
      exact hmix
    have horigin_root : origin = cfg.ident := by
      by_contra hne'
      have hallnested : ∀ n ∈ children, n.map_strategy = .nested origin := by
        intro n hn
        have h1 := horig n hn
        cases hs : n.map_strategy with
        | fromImpl =>
          rw [NestOpts_origin_of_fromImpl cfg.ident hs] at h1
          exact absurd h1.symm hne'
        | transform w =>
          rw [NestOpts_origin_of_transform cfg.ident w hs] at h1
          exact absurd h1.symm hne'
        | nested o =>
          have : n.origin cfg.ident = o := by unfold NestOpts.origin; rw [hs]
          rw [this] at h1
          rw [h1]
      have huni : strategiesUniform children = true :=
        strategiesUniform_of_all hne hallnested
      rw [huni] at hmix
      exact absurd hmix (by simp)
    subst horigin_root
    have hrn : rootNestsOf cfg = children := rootNestsOf_of_lookup hchild
    have hff : allFromImplOf cfg = false := by
      cases hb : allFromImplOf cfg with
      | false => rfl
      | true =>
        exfalso
        unfold allFromImplOf at hb
        rw [hrn] at hb
        have hallm := List.all_eq_true.mp hb
        have huni : strategiesUniform children = true :=
          strategiesUniform_of_all hne (fun n hn => mapsWithFrom_eq (hallm n hn))
        rw [huni] at hmix
        exact absurd hmix (by simp)
    have htw : transformAllWithOf cfg = none := by
      unfold transformAllWithOf
      cases hft : firstTransformOf cfg with
      | none => rfl
      | some w =>
        dsimp only
        rw [hrn]
        cases hai : children.all (fun n => n.map_strategy == NestMapStrategy.transform w) with
        | false => rw [if_neg (by simp)]
        | true =>
          exfalso
          have hallm := List.all_eq_true.mp hai
          have huni : strategiesUniform children = true :=
            strategiesUniform_of_all hne (fun n hn => eq_of_beq (hallm n hn))
          rw [huni] at hmix
          exact absurd hmix (by simp)
    rw [hout, generate_output_eq, hff, htw, generate_wrapper_struct_none_items]
    rw [List.countP_append, List.countP_append]
    rw [countP_conversion_extras_false, countP_conversion_nests]
    simp [List.countP_cons, Item.isOriginLevelConversion, Wrapper.to_tokens_item, Wrapper.new]

/-- **C2 witness**: instantiating the amended strategy-consistency theorem
at the uniform-transformer Config (`cfgTrans`): the run emits exactly one
transformer-delegation function, invoking the transformer for both child
groups. -/
theorem c2_strategy_consistency_amended_witness :
    (exceptOut (generate_entrypoint cfgTrans)).countP Item.isWrapWith = 1 ∧
    Item.wrapWithImpl "MyTransform" "R" "RWrapper" ["g1", "g2"] ∈
      exceptOut (generate_entrypoint cfgTrans) := by
  have h := (c2_strategy_consistency_amended cfgTrans
    (exceptOut (generate_entrypoint cfgTrans)) (by rfl) "R" [g1Trans, g2Trans]
    (by decide)).2.1 "MyTransform" (by decide)
  exact h

/-- **C3** (the claim fails on the code; the crate's own documentation
promises the wrapper indirection): in the scenario-D Config the group `g1`
is itself an origin of further groups, yet the root extra struct embeds it
as its *bare* nest struct `RNestedG1`; the wrapper type `RNestedG1Wrapper`
the claim requires appears nowhere in the output. -/
theorem c3_parent_group_embedded_as_bare_nest_type :
    exceptIsOk (generate_entrypoint cfgDeep) = true ∧
    (lookupA (build_origin_map cfgDeep.nest_opts cfgDeep.ident)
        (g1From.struct_name cfgDeep.ident)).isSome = true ∧
    (structFieldsOf (exceptOut (generate_entrypoint cfgDeep)) "RExtra").map
        (fun f => (f.name, f.ty)) = [("g1", FieldTy.plain "RNestedG1")] ∧
    (exceptOut (generate_entrypoint cfgDeep)).all
        (fun i => !(Item.namesType "RNestedG1Wrapper" i)) = true := by
  refine ⟨by decide, by decide, by decide, by decide⟩

/-- **C4** (the claim fails on the code): `generate_entrypoint` accepts a
Config with two groups of identity `g1` — `validate_nests` computes the
duplicate-identity diagnostic and then drops it (dead `issues` vector
under a `FIXME: error handling`), so generation succeeds and emits output;
likewise two groups resolving to the same struct name produce two
identically-named struct definitions.  The dormant registry path
(`NestRepo::insert`, not called by `generate_entrypoint`) does reject the
duplicate, referencing both declarations' locations. -/
theorem c4_duplicate_identity_accepted_by_entrypoint :
    duplicate_id_issues (cfgDupId.nest_opts.map (·.id)) =
      ["Multiple nests are using the same ID: `g1`"] ∧
    exceptIsOk (generate_entrypoint cfgDupId) = true ∧
    exceptOut (generate_entrypoint cfgDupId) ≠ [] ∧
    exceptIsOk (generate_entrypoint cfgDupName) = true ∧
    (exceptOut (generate_entrypoint cfgDupName)).countP
      (Item.isStructNamed "RNestedG1") = 2 ∧
    (((NestRepo.new "R").insert g1From).bind
        (fun r => r.insert { g1From with id_span := "g1-second-decl" })) =
      Except.error (RepoError.duplicateId "g1" "g1-decl" "g1-second-decl") := by
  refine ⟨by decide, by decide, by decide, by decide, by decide, by rfl⟩

/-- **C5** (the claim fails on the code): for the scenario-D Config the
generator emits no conversion function from `g1`'s origin `R` to a nested
wrapper — the only conversion items target the root wrapper, the root
extra and the root-level nest, and no item mentions `RNestedG1Wrapper` at
all (no nested wrapper exists to convert to). -/
theorem c5_no_conversion_to_nested_wrapper_emitted :
    exceptIsOk (generate_entrypoint cfgDeep) = true ∧
    (exceptOut (generate_entrypoint cfgDeep)).filter Item.isConversionItem =
      [Item.wrapImpl "R" "RWrapper", Item.fromDataImpl "R" "RWrapper" false,
       Item.fromDataImpl "R" "RExtra" true, Item.toNestImpl "R" "RNestedG1"] ∧
    ((exceptOut (generate_entrypoint cfgDeep)).countP
      (fun i => Item.namesType "RNestedG1Wrapper" i)) = 0 := by
  refine ⟨by decide, by decide, by decide⟩

/-- **C8 counterexample**: a Config-specified derive equal to a baseline
entry is *not* deduplicated — with `derive(Debug)` on the wrapper, `Debug`
appears twice in the emitted derive list. -/
theorem c8_counterexample_duplicate_derive_not_deduped :
    (structDerivesOf (exceptOut (generate_entrypoint cfgDeriveDup)) "RWrapper").count
      "Debug" = 2 ∧
    build_derives_token ["Debug"] = ["Debug", "Clone", "serde::Serialize", "Debug"] := by
  refine ⟨by decide, by decide⟩

/-- **C8 (amended)**: every emitted derive list is the baseline trio
`Debug, Clone, serde::Serialize` followed by the Config-specified derives
in order, without deduplication; in particular the baseline trio is always
present. -/
theorem c8_derive_list_baseline_then_config (ds : List String) :
    build_derives_token ds = default_derive_names ++ ds ∧
    "Debug" ∈ build_derives_token ds ∧
    "Clone" ∈ build_derives_token ds ∧
    "serde::Serialize" ∈ build_derives_token ds := by
  have h : build_derives_token ds = default_derive_names ++ ds := by
    cases ds with
    | nil => simp [build_derives_token]
    | cons a l => simp [build_derives_token]
  refine ⟨h, ?_, ?_, ?_⟩ <;> rw [h] <;> simp [default_derive_names]

/-- **C10**: the wrapper's data field carries `#[serde(flatten)]` exactly
when the flatten option is not explicitly set to `false` — absent and
valueless flatten options default to enabled.  Moreover every successful
run's output starts with such a wrapper struct item built from the
Config's wrapper options. -/
theorem c10_wrapper_flatten_default_enabled :
    (∀ (wo : WrapperOpts) (root extraIdent : String) (sa : List String),
      ("serde(flatten)" ∈ (Wrapper.new wo root extraIdent sa).to_tokens_item.fieldAttrs
          wo.data_field_name) ↔ wo.flatten ≠ some (OverrideB.explicit false)) ∧
    (∀ (cfg : DeriveItemOpts) (out : List Item), generate_entrypoint cfg = Except.ok out →
      ∃ sa rest, out = (Wrapper.new cfg.wrapper_opts cfg.ident
          (cfg.extra_opts.struct_name cfg.ident) sa).to_tokens_item :: rest) := by
  constructor
  · intro wo root extraIdent sa
    have hfa : (Wrapper.new wo root extraIdent sa).to_tokens_item.fieldAttrs
        wo.data_field_name = (if wo.flattenVal then ["serde(flatten)"] else []) := by
      simp only [Wrapper.new, Wrapper.to_tokens_item, Item.fieldAttrs]
      rw [List.find?_cons_of_pos _ (by simp)]
      rfl
    rw [hfa]
    cases hf : wo.flatten with
    | none => simp [WrapperOpts.flattenVal, hf]
    | some ov =>
      cases ov with
      | inherit => simp [WrapperOpts.flattenVal, hf]
      | explicit b => cases b <;> simp [WrapperOpts.flattenVal, hf]
  · intro cfg out hok
    obtain ⟨nf, sa0, fa, hnf, hv, hsa, hvf, hfa, hout⟩ := generate_entrypoint_ok hok
    obtain ⟨impls, hw⟩ := generate_wrapper_struct_head cfg.wrapper_opts cfg.ident
      (cfg.extra_opts.struct_name cfg.ident) (build_origin_map cfg.nest_opts cfg.ident)
      sa0 (allFromImplOf cfg) (transformAllWithOf cfg)
    refine ⟨wrapper_attrs_of (build_origin_map cfg.nest_opts cfg.ident) cfg.ident sa0,
      impls ++ generate_extra_structs cfg.extra_opts cfg.ident
          (build_origin_map cfg.nest_opts cfg.ident) sa0 (allFromImplOf cfg)
        ++ generate_nest_structs cfg.ident (build_origin_map cfg.nest_opts cfg.ident)
            sa0 nf fa, ?_⟩
    rw [hout, generate_output_eq, hw]
    simp [List.append_assoc]

/-- **C6**: a Config in which a field's group list or a pass-through
annotation names a never-declared group makes generation terminate
fatally, with the error carrying an unresolvable group name together with
the referencing declaration (the field's name, resp. the annotation's
span); nothing is silently dropped.  The cleanliness hypothesis isolates
this failure (the field map builds, fields are named, every declared group
has an assigned field, and the annotations deserialize), so that no other
fatal error preempts the unknown-reference diagnostic. -/
theorem c6_unknown_group_reference_fatal (cfg : DeriveItemOpts)
    (href : hasUnknownNestRef cfg = true) (hcln : c6Clean cfg = true) :
    ∃ e, generate_entrypoint cfg = Except.error e ∧ reportsNestRef e = true := by
  unfold c6Clean at hcln
  rw [Bool.and_eq_true, Bool.and_eq_true, Bool.and_eq_true] at hcln
  obtain ⟨⟨⟨hc1, hc2⟩, hc3⟩, hc4⟩ := hcln
  cases hnf : build_nest_fields_map cfg.fields with
  | error e0 => rw [hnf] at hc1; simp at hc1
  | ok nf =>
    rw [hnf] at hc1
    have hid : ∀ f ∈ cfg.fields, f.ident ≠ none := by
      intro f hf
      have hx := List.all_eq_true.mp hc2 f hf
      cases hfo : f.ident with
      | none => rw [hfo] at hx; simp at hx
      | some nm => simp [hfo]
    obtain ⟨sa, hsa⟩ : ∃ sa, parse_forward_attrs cfg.attrs true = Except.ok sa := by
      cases hx : parse_forward_attrs cfg.attrs true with
      | error e0 => rw [hx] at hc3; simp at hc3
      | ok sa => exact ⟨sa, rfl⟩
    have hpf : ∀ f ∈ cfg.fields, ∃ p, parse_forward_attrs f.attrs false = Except.ok p := by
      intro f hf
      have hx := List.all_eq_true.mp hc4 f hf
      cases hy : parse_forward_attrs f.attrs false with
      | error e0 => rw [hy] at hx; simp at hx
      | ok p => exact ⟨p, rfl⟩
    cases hneed : nf.any (fun e => !((declaredNestIds cfg).contains e.1)) with
    | true =>
      obtain ⟨en, hen, henb⟩ := List.any_eq_true.mp hneed
      have henb2 : (declaredNestIds cfg).contains en.1 = false := by simpa using henb
      have hvne := build_nest_fields_map_values_nonempty hnf
      obtain ⟨nid, fn, hvgo, hnidc⟩ :=
        validateNestsGo_error (declaredNestIds cfg) ⟨en, hen, henb2⟩ hvne
      exact ⟨.unknownNestField nid fn,
        generate_entrypoint_error_validate hnf hvgo, rfl⟩
    | false =>
      have hallk : ∀ e ∈ nf, (declaredNestIds cfg).contains e.1 = true := by
        intro e he
        have hx := List.any_eq_false.mp hneed e he
        simpa using hx
      have hvok : validate_nests nf (cfg.nest_opts.map (·.id)) = Except.ok () :=
        validateNestsGo_ok (declaredNestIds cfg) hallk
      have hnotkey : ∀ i : String, (declaredNestIds cfg).contains i = false →
          (keysA nf).contains i = false := by
        intro i hic
        cases hk : (keysA nf).contains i with
        | false => rfl
        | true =>
          exfalso
          obtain ⟨e, he, heq⟩ := exists_lookup_of_keysA_contains hk
          have hx := hallk e he
          rw [heq] at hx
          rw [hx] at hic
          simp at hic
      unfold hasUnknownNestRef at href
      rw [Bool.or_eq_true, Bool.or_eq_true] at href
      rcases href with (hfr | hsr) | hfr2
      · exfalso
        unfold fieldRefsUnknownNest at hfr
        obtain ⟨f, hf, hfb⟩ := List.any_eq_true.mp hfr
        rw [Bool.and_eq_true] at hfb
        obtain ⟨hfidb, hfni⟩ := hfb
        obtain ⟨ni, hni, hnib⟩ := List.any_eq_true.mp hfni
        have hnib2 : (declaredNestIds cfg).contains ni.nest_id = false := by
          simpa using hnib
        obtain ⟨nm, hnm⟩ : ∃ nm, f.ident = some nm := by
          cases hfo : f.ident with
          | none => rw [hfo] at hfidb; simp at hfidb
          | some nm => exact ⟨nm, rfl⟩
        obtain ⟨fs, hfs⟩ := lookup_isSome_of_ref hnf hf hnm hni
        have hx := hallk (ni.nest_id, fs) (mem_of_lookupA hfs)
        rw [hnib2] at hx
        simp at hx
      · unfold structAttrRefsUnknownNest at hsr
        obtain ⟨pa, hpa, hpab⟩ := List.any_eq_true.mp hsr
        unfold attrRefsUnknownNest at hpab
        rw [Bool.and_eq_true] at hpab
        obtain ⟨hane, hnest⟩ := hpab
        obtain ⟨i, hi, hib⟩ := List.any_eq_true.mp hnest
        have hib2 : (declaredNestIds cfg).contains i = false := by simpa using hib
        have hkey := hnotkey i hib2
        have hane2 : pa.attr ≠ [] := by
          cases hx : pa.attr with
          | nil => rw [hx] at hane; simp at hane
          | cons _ _ => simp [hx]
        obtain ⟨a, hap, ids, hids, hiin⟩ :=
          parse_forward_attrs_restriction hsa hpa hi hane2
        have hany : ids.any (fun j => !(keysA nf).contains j) = true :=
          List.any_eq_true.mpr ⟨i, hiin, by simpa using hkey⟩
        obtain ⟨e', he'⟩ := validate_forward_attrs_errors ⟨a, hap, ids, hids, hany⟩
        obtain ⟨nid, sp, heq, hbc⟩ := validate_forward_attrs_error_shape he'
        refine ⟨e', generate_entrypoint_error_struct_attrs hnf hvok hsa he', ?_⟩
        rw [heq]
        rfl
      · unfold fieldAttrRefsUnknownNest at hfr2
        obtain ⟨f, hf, hfb⟩ := List.any_eq_true.mp hfr2
        obtain ⟨pa, hpa, hpab⟩ := List.any_eq_true.mp hfb
        unfold attrRefsUnknownNest at hpab
        rw [Bool.and_eq_true] at hpab
        obtain ⟨hane, hnest⟩ := hpab
        obtain ⟨i, hi, hib⟩ := List.any_eq_true.mp hnest
        have hib2 : (declaredNestIds cfg).contains i = false := by simpa using hib
        have hkey := hnotkey i hib2
        have hane2 : pa.attr ≠ [] := by
          cases hx : pa.attr with
          | nil => rw [hx] at hane; simp at hane
          | cons _ _ => simp [hx]
        cases hvf : validate_forward_attrs sa nf with
        | error e1 =>
          obtain ⟨nid, sp, heq, _⟩ := validate_forward_attrs_error_shape hvf
          refine ⟨e1, generate_entrypoint_error_struct_attrs hnf hvok hsa hvf, ?_⟩
          rw [heq]
          rfl
        | ok u =>
          cases u
          obtain ⟨e2, he2⟩ :=
            parseFieldAttrsGo_errors ⟨f, hf, pa, hpa, hane2, i, hi, hkey⟩ hid hpf
          obtain ⟨nid, sp, heq, _⟩ := parseFieldAttrsGo_error_shape he2 hid hpf
          refine ⟨e2, generate_entrypoint_error_field_attrs hnf hvok hsa hvf
            (parse_field_attrs_error he2), ?_⟩
          rw [heq]
          rfl

/-- **C6 witness**: the Config whose field `a` names the undeclared group
`ghost` fails fatally with an error reporting the unresolvable name and
the referencing field. -/
theorem c6_unknown_group_reference_fatal_witness :
    ∃ e, generate_entrypoint cfgUnknownFieldRef = Except.error e ∧
      reportsNestRef e = true :=
  c6_unknown_group_reference_fatal cfgUnknownFieldRef (by decide) (by decide)

/-- **C7**: in every successful run's output, the nest struct emitted for
a group lists exactly the fields assigned to that group, in the original
field declaration order. -/
theorem c7_nest_field_order_preserved (cfg : DeriveItemOpts) (out : List Item)
    (hok : generate_entrypoint cfg = Except.ok out) (nest : NestOpts)
    (hmem : nest ∈ cfg.nest_opts) :
    ∃ ds ats flds,
      Item.structDef (nest.struct_name cfg.ident) ds ats flds ∈ out ∧
      flds.map (·.name) = assignedFieldNames cfg.fields nest.id := by
  obtain ⟨nf, sa, fa, hnf, hv, hsa, hvf, hfa, hout⟩ := generate_entrypoint_ok hok
  obtain ⟨l, hl, hnl⟩ := nest_mem_origin_map cfg.ident hmem
  have hentry : (nest.origin cfg.ident, l) ∈ build_origin_map cfg.nest_opts cfg.ident :=
    mem_of_lookupA hl
  obtain ⟨ds, ats, flds, rest, hshape, hnames⟩ :=
    Nest_to_tokens_fields_names
      (Nest.new nest cfg.ident
        ((sa.filter (fun a => a.has_struct_scope_for_nest .nestScope nest.id)).map
          (·.attributes_token))
        ((lookupA nf nest.id).getD []) ((lookupA fa nest.id).getD []))
  refine ⟨ds, ats, flds, ?_, ?_⟩
  · have hitem : Item.structDef (nest.struct_name cfg.ident) ds ats flds ∈
        nest_items_for cfg.ident sa nf fa nest := by
      rw [nest_items_for_shape, hshape]
      exact List.mem_cons_self _ _
    have hC := mem_generate_nests_of_entry hentry hnl hitem
    rw [hout, generate_output_eq]
    exact List.mem_append.mpr (Or.inr hC)
  · rw [hnames]
    have hlook := build_nest_fields_map_lookup hnf nest.id
    by_cases he : (assignedNestFields cfg.fields nest.id).isEmpty = true
    · rw [if_pos he] at hlook
      rw [hlook]
      have : assignedNestFields cfg.fields nest.id = [] := List.isEmpty_iff.mp he
      simp [assignedFieldNames, this, Nest.new]
    · rw [if_neg he] at hlook
      rw [hlook]
      simp [assignedFieldNames, Nest.new]

/-- **C7 witness**: scenario A — fields `a`, `b` assigned to `g1` in that
order appear in `RNestedG1` in that order. -/
theorem c7_nest_field_order_preserved_witness :
    ∃ ds ats flds,
      Item.structDef "RNestedG1" ds ats flds ∈ exceptOut (generate_entrypoint cfgA) ∧
      flds.map (·.name) = ["a", "b"] := by
  have h := c7_nest_field_order_preserved cfgA (exceptOut (generate_entrypoint cfgA))
    (by rfl) g1From (by decide)
  exact h

/-- **C9**: in every successful run's output, each group's embedding field
in its origin's extra struct is typed `Option<NestStruct>` exactly when
the group is marked optional, and `NestStruct` otherwise. -/
theorem c9_optional_group_embedded_as_option (cfg : DeriveItemOpts) (out : List Item)
    (hok : generate_entrypoint cfg = Except.ok out) (nest : NestOpts)
    (hmem : nest ∈ cfg.nest_opts) :
    ∃ ds ats flds,
      Item.structDef (cfg.extra_opts.struct_name (nest.origin cfg.ident)) ds ats flds ∈ out ∧
      ({ name := nest.field_name
         ty := if nest.optional then FieldTy.optionOf (nest.struct_name cfg.ident)
               else FieldTy.plain (nest.struct_name cfg.ident) } : FieldDef) ∈ flds := by
  obtain ⟨nf, sa, fa, hnf, hv, hsa, hvf, hfa, hout⟩ := generate_entrypoint_ok hok
  obtain ⟨l, hl, hnl⟩ := nest_mem_origin_map cfg.ident hmem
  have hentry : (nest.origin cfg.ident, l) ∈ build_origin_map cfg.nest_opts cfg.ident :=
    mem_of_lookupA hl
  refine ⟨build_derives_token cfg.extra_opts.derive, extra_attrs_of sa l,
    (extra_nest_fields_of cfg.ident l).map (fun n =>
      { name := n.field_name
        ty := if n.optional then FieldTy.optionOf n.type_ident
              else FieldTy.plain n.type_ident }), ?_, ?_⟩
  · have hitem : (Extra.new cfg.extra_opts (nest.origin cfg.ident) (extra_attrs_of sa l)
        (extra_nest_fields_of cfg.ident l)).to_tokens_item ∈
        extra_items_for cfg.extra_opts cfg.ident sa (allFromImplOf cfg)
          (nest.origin cfg.ident) l := by
      rw [extra_items_for_shape]
      exact List.mem_cons_self _ _
    have hB := mem_generate_extra_of_entry hentry hitem
    rw [Extra_new_to_tokens] at hB
    rw [hout, generate_output_eq]
    exact List.mem_append.mpr (Or.inl (List.mem_append.mpr (Or.inr hB)))
  · have hf : (⟨nest.field_name, nest.struct_name cfg.ident, nest.optional⟩ :
        ExtraNestField) ∈ extra_nest_fields_of cfg.ident l :=
      List.mem_map.mpr ⟨nest, hnl, rfl⟩
    exact List.mem_map.mpr ⟨_, hf, rfl⟩

/-- **C9 witness**: in the scenario-B run (group `g1` marked optional) the
root extra embeds `g1` as `Option<RNestedG1>`. -/
theorem c9_optional_group_embedded_as_option_witness :
    ∃ ds ats flds,
      Item.structDef "RExtra" ds ats flds ∈ exceptOut (generate_entrypoint cfgOpt) ∧
      ({ name := "g1", ty := FieldTy.optionOf "RNestedG1" } : FieldDef) ∈ flds := by
  have h := c9_optional_group_embedded_as_option cfgOpt
    (exceptOut (generate_entrypoint cfgOpt)) (by rfl)
    { g1From with optional := true } (by decide)
  exact h

/-- **C10 witness**: instantiating the flatten property at the default
wrapper options and the head-item property at the scenario-A run. -/
theorem c10_wrapper_flatten_default_enabled_witness :
    ("serde(flatten)" ∈ (Wrapper.new {} "R" "RExtra" []).to_tokens_item.fieldAttrs
        (WrapperOpts.data_field_name {})) ∧
    (∃ sa rest, exceptOut (generate_entrypoint cfgA) =
      (Wrapper.new cfgA.wrapper_opts cfgA.ident
        (cfgA.extra_opts.struct_name cfgA.ident) sa).to_tokens_item :: rest) := by
  constructor
  · exact (c10_wrapper_flatten_default_enabled.1 {} "R" "RExtra" []).mpr (by simp)
  · exact c10_wrapper_flatten_default_enabled.2 cfgA (exceptOut (generate_entrypoint cfgA))
      (by rfl)

end Shrinkwrap
